import Mathlib

/-!
# phenohunt: component loader and page behaviour

A shallow embedding of `js/components.js` (class `ComponentLoader`) and of the
form, menu and start-up code of `js/main.js`, with the properties of the
link rewriting, field validation, submit handling, mobile menu and fragment
insertion stated over it.
-/

namespace Phenohunt

/-! ## Strings -/

/-- A JavaScript string without lone surrogates, one list element per code
point.  A character outside the Basic Multilingual Plane takes two UTF-16 code
units, which is what `length` counts (`jsLength`); searching, replacing and
trimming with the ASCII literals of the program go by code point and by code
unit alike. -/
abbrev JSString := List Char

/-- Number of UTF-16 code units of a character: two from U+10000 on. -/
def codeUnits (c : Char) : Nat :=
  if c.toNat < 65536 then 1 else 2

/-- The property `length` of a string: its number of UTF-16 code units. -/
def jsLength (s : JSString) : Nat :=
  (s.map codeUnits).sum

/-- `String.prototype.includes(sub)`: some position of `s` starts with `sub`. -/
def includes : JSString → JSString → Bool
  | [], sub => sub.isPrefixOf []
  | c :: cs, sub => sub.isPrefixOf (c :: cs) || includes cs sub

/-- `String.prototype.endsWith(suffix)`. -/
def endsWith (s suffix : JSString) : Bool :=
  suffix.reverse.isPrefixOf s.reverse

/-- `String.prototype.replace(pat, rep)` with a string pattern: only the first
occurrence of `pat` is replaced.  The replacement strings of the program
contain no `$`, so the replacement text is inserted literally. -/
def replace : JSString → JSString → JSString → JSString
  | [], pat, rep => if pat.isPrefixOf [] then rep else []
  | c :: cs, pat, rep =>
    if pat.isPrefixOf (c :: cs) then rep ++ (c :: cs).drop pat.length
    else c :: replace cs pat rep

/-- Number of positions of `s` at which the non-empty string `q` occurs. -/
def countOcc (q : JSString) : JSString → Nat
  | [] => 0
  | c :: cs => (if q.isPrefixOf (c :: cs) then 1 else 0) + countOcc q cs

/-! ## `ComponentLoader.getBasePath` and `ComponentLoader.updateNavigation` -/

/-- The `isHomePage` flag of `updateNavigation`; the method computes it and
never reads it. -/
def isHomePage (currentPath : JSString) : Bool :=
  currentPath == "/".toList || endsWith currentPath "index.html".toList || currentPath == []

/-- `ComponentLoader.getBasePath`, with `window.location.pathname` as argument. -/
def getBasePath (currentPath : JSString) : JSString :=
  if includes currentPath "/pages/".toList then "..".toList else ".".toList

/-- `ComponentLoader.updateNavigation(content, componentName)`, with
`window.location.pathname` as first argument. -/
def updateNavigation (currentPath content componentName : JSString) : JSString :=
  let isContactPage := includes currentPath "contact.html".toList
  let content :=
    if componentName = "header".toList then
      if isContactPage then
        let content := replace content "href=\"/\"".toList "href=\"../index.html\"".toList
        let content := replace content "href=\"#features\"".toList
          "href=\"../index.html#features\"".toList
        let content := replace content "href=\"#how-it-works\"".toList
          "href=\"../index.html#how-it-works\"".toList
        let content := replace content "href=\"#benefits\"".toList
          "href=\"../index.html#benefits\"".toList
        replace content "href=\"/pages/contact.html\"".toList "href=\"contact.html\"".toList
      else
        let content := replace content "href=\"/\"".toList "href=\"index.html\"".toList
        replace content "href=\"/pages/contact.html\"".toList
          "href=\"pages/contact.html\"".toList
    else content
  let content :=
    if componentName = "footer".toList then
      if isContactPage then
        let content := replace content "href=\"/\"".toList "href=\"../index.html\"".toList
        let content := replace content "href=\"#features\"".toList
          "href=\"../index.html#features\"".toList
        let content := replace content "href=\"#benefits\"".toList
          "href=\"../index.html#benefits\"".toList
        replace content "href=\"/pages/contact.html\"".toList "href=\"contact.html\"".toList
      else
        let content := replace content "href=\"/\"".toList "href=\"index.html\"".toList
        replace content "href=\"/pages/contact.html\"".toList
          "href=\"pages/contact.html\"".toList
    else content
  content

/-! ## Regular expressions of the validation rules -/

/-- The white space of `String.prototype.trim` and of the class `\s`:
WhiteSpace and LineTerminator code points. -/
def isWhiteSpace (c : Char) : Bool :=
  [9, 10, 11, 12, 13, 32, 160, 5760, 8232, 8233, 8239, 8287, 12288, 65279].contains c.toNat ||
  (8192 ≤ c.toNat && c.toNat ≤ 8202)

/-- `String.prototype.trim()`. -/
def trim (s : JSString) : JSString :=
  ((s.dropWhile isWhiteSpace).reverse.dropWhile isWhiteSpace).reverse

/-- The regular expressions the rule table needs: character classes,
concatenation, alternation and iteration.  The patterns have no `u` flag and
match code unit by code unit; the one class of the table that holds
characters outside the Basic Multilingual Plane, `[^\s@]`, holds both of their
code units and is iterated, so matching code point by code point accepts the
same strings. -/
inductive Regex where
  | never : Regex
  | eps : Regex
  | cls (p : Char → Bool) : Regex
  | seq (a b : Regex) : Regex
  | alt (a b : Regex) : Regex
  | star (a : Regex) : Regex

namespace Regex

/-- The expression matches the empty string. -/
def nullable : Regex → Bool
  | never => false
  | eps => true
  | cls _ => false
  | seq a b => a.nullable && b.nullable
  | alt a b => a.nullable || b.nullable
  | star _ => true

/-- What is left to match after reading `c`. -/
def deriv (c : Char) : Regex → Regex
  | never => never
  | eps => never
  | cls p => if p c then eps else never
  | seq a b =>
    if a.nullable then alt (seq (a.deriv c) b) (b.deriv c) else seq (a.deriv c) b
  | alt a b => alt (a.deriv c) (b.deriv c)
  | star a => seq (a.deriv c) (star a)

/-- `RegExp.prototype.test` for a pattern anchored by `^` and `$` and without
flags: the whole string matches. -/
def test (r : Regex) (s : JSString) : Bool :=
  (s.foldl (fun r c => r.deriv c) r).nullable

/-- `a+`. -/
def plus (a : Regex) : Regex := seq a (star a)

/-- `a?`. -/
def opt (a : Regex) : Regex := alt a eps

/-- `a{n,}`. -/
def atLeast : Nat → Regex → Regex
  | 0, a => star a
  | n + 1, a => seq a (atLeast n a)

end Regex

/-- `[a-zA-Z\s]`. -/
def isLetterOrSpace (c : Char) : Bool :=
  ('a'.toNat ≤ c.toNat && c.toNat ≤ 'z'.toNat) ||
  ('A'.toNat ≤ c.toNat && c.toNat ≤ 'Z'.toNat) || isWhiteSpace c

/-- `[^\s@]`. -/
def isNotSpaceOrAt (c : Char) : Bool :=
  !(isWhiteSpace c || c == '@')

/-- `[0-9\s\-\(\)]`. -/
def isPhoneChar (c : Char) : Bool :=
  ('0'.toNat ≤ c.toNat && c.toNat ≤ '9'.toNat) || isWhiteSpace c ||
  c == '-' || c == '(' || c == ')'

/-- `/^[a-zA-Z\s]+$/`. -/
def namePattern : Regex := Regex.plus (Regex.cls isLetterOrSpace)

/-- `/^[^\s@]+@[^\s@]+\.[^\s@]+$/`. -/
def emailPattern : Regex :=
  Regex.seq (Regex.plus (Regex.cls isNotSpaceOrAt))
    (Regex.seq (Regex.cls (fun c => c == '@'))
      (Regex.seq (Regex.plus (Regex.cls isNotSpaceOrAt))
        (Regex.seq (Regex.cls (fun c => c == '.')) (Regex.plus (Regex.cls isNotSpaceOrAt)))))

/-- `/^[\+]?[0-9\s\-\(\)]{8,}$/`. -/
def phonePattern : Regex :=
  Regex.seq (Regex.opt (Regex.cls (fun c => c == '+')))
    (Regex.atLeast 8 (Regex.cls isPhoneChar))

/-! ## Field validation (`main.js`) -/

/-- One entry of `validationRules`. -/
structure Rule where
  required : Bool
  minLength : Option Nat
  pattern : Option Regex
  message : JSString

/-- Property names every object inherits from `Object.prototype`: for these
`validationRules[fieldName]` is a truthy value without `required`, `minLength`,
`pattern` or `message`. -/
def objectPrototypeKeys : List JSString :=
  [ "constructor".toList, "__proto__".toList, "hasOwnProperty".toList,
    "isPrototypeOf".toList, "propertyIsEnumerable".toList, "toLocaleString".toList,
    "toString".toList, "valueOf".toList, "__defineGetter__".toList,
    "__defineSetter__".toList, "__lookupGetter__".toList, "__lookupSetter__".toList ]

/-- The keys of the `validationRules` literal. -/
def ruleKeys : List JSString :=
  [ "firstName".toList, "lastName".toList, "email".toList, "phone".toList,
    "subject".toList, "message".toList ]

/-- The lookup `validationRules[fieldName]`; `none` is `undefined`. -/
def validationRules (fieldName : JSString) : Option Rule :=
  if fieldName = "firstName".toList then
    some { required := true, minLength := some 2, pattern := some namePattern,
           message :=
             "First name must be at least 2 characters and contain only letters".toList }
  else if fieldName = "lastName".toList then
    some { required := true, minLength := some 2, pattern := some namePattern,
           message :=
             "Last name must be at least 2 characters and contain only letters".toList }
  else if fieldName = "email".toList then
    some { required := true, minLength := none, pattern := some emailPattern,
           message := "Please enter a valid email address".toList }
  else if fieldName = "phone".toList then
    some { required := true, minLength := none, pattern := some phonePattern,
           message := "Please enter a valid phone number".toList }
  else if fieldName = "subject".toList then
    some { required := true, minLength := some 3, pattern := none,
           message := "Subject must be at least 3 characters long".toList }
  else if fieldName = "message".toList then
    some { required := true, minLength := some 10, pattern := none,
           message := "Message must be at least 10 characters long".toList }
  else if objectPrototypeKeys.contains fieldName then
    some { required := false, minLength := none, pattern := none, message := [] }
  else none

/-- An `input`, `textarea` or `select` element with what the validation code
reads and writes: its name, value and default value, whether its class list
holds `error`, and, in its parent element, the text of the first
`.error-message` element (`none`: there is none yet) and of the first `label`
(`none`: there is none).  Each control is taken to sit in a parent of its own. -/
structure Field where
  name : JSString
  value : JSString
  defaultValue : JSString
  errorClass : Bool
  errorContainer : Option JSString
  label : Option JSString

/-- `showFieldError(field, errorContainer, message)`; the three style
properties it sets on the container are not modelled. -/
def showFieldError (field : Field) (message : JSString) : Field :=
  { field with errorClass := true, errorContainer := some message }

/-- `getOrCreateErrorContainer(field)`: afterwards the parent has a container,
a new one being empty. -/
def getOrCreateErrorContainer (field : Field) : Field :=
  match field.errorContainer with
  | some _ => field
  | none => { field with errorContainer := some [] }

/-- `getFieldLabel(field)`. -/
def getFieldLabel (field : Field) : JSString :=
  match field.label with
  | some text => trim (replace text "*".toList [])
  | none => field.name

/-- `validateField({ target: field })`: the returned value (`none` is
`undefined`) and the field afterwards. -/
def validateField (field : Field) : Option Bool × Field :=
  let value := trim field.value
  let fieldName := field.name
  let field := getOrCreateErrorContainer field
  let field := { field with errorContainer := some [], errorClass := false }
  match validationRules fieldName with
  | none => (none, field)
  | some rule =>
    if rule.required && value.isEmpty then
      (some false, showFieldError field (getFieldLabel field ++ " is required".toList))
    else if value.isEmpty && !rule.required then (some true, field)
    else if (match rule.minLength with
        | some n => n != 0 && decide (jsLength value < n)
        | none => false) then
      (some false, showFieldError field rule.message)
    else if (match rule.pattern with
        | some p => !p.test value
        | none => false) then
      (some false, showFieldError field rule.message)
    else (some true, field)

/-- `clearErrors({ target: field })`. -/
def clearErrors (field : Field) : Field :=
  match field.errorContainer with
  | some _ => { field with errorContainer := some [], errorClass := false }
  | none => field

/-- The value conforms to the rule: non-empty after trimming, at least
`minLength` code units long when the rule has one, matching `pattern` when it
has one. -/
def conforms (rule : Rule) (value : JSString) : Bool :=
  !value.isEmpty &&
  (match rule.minLength with
    | some n => decide (n ≤ jsLength value)
    | none => true) &&
  (match rule.pattern with
    | some p => p.test value
    | none => true)

/-! ## Forms, submit listeners and timers (`main.js`) -/

/-- The element found by `querySelector('.form-submit')` inside a form. -/
structure Control where
  textContent : JSString
  disabled : Bool
deriving DecidableEq

/-- The `submit` listeners the program registers on a form: the named function
`handleFormSubmit` (by `initFormValidation`) and the closure of
`initContactForm`, which holds the label read at registration. -/
inductive SubmitListener where
  | handleFormSubmit : SubmitListener
  | contactSubmit (originalButtonText : JSString) : SubmitListener
deriving DecidableEq

/-- A `form` element: its id, its `input, textarea, select` descendants in
document order, its first `.form-submit` descendant, and its `submit`
listeners in registration order. -/
structure Form where
  id : JSString
  fields : List Field
  submitControl : Option Control
  submitListeners : List SubmitListener

/-- The callbacks the program hands to `setTimeout`: the 2000 ms callback of
the contact listener (for the form at an index, with the saved label) and the
5000 ms callback of `showFormSuccess` (for one banner). -/
inductive TimerAction where
  | finishContact (form : Nat) (originalButtonText : JSString) : TimerAction
  | removeBanner (banner : Nat) : TimerAction
deriving DecidableEq

/-- A pending timer and the time, in milliseconds, at which it is due. -/
structure Timer where
  due : Nat
  action : TimerAction
deriving DecidableEq

/-- The click listeners registered on the `.mobile-menu-button` element: the
anonymous toggle of `ComponentLoader.initializeMobileMenu` and the named
function `handleMobileMenuClick` of `main.js`. -/
inductive ButtonListener where
  | loaderToggle : ButtonListener
  | handleMobileMenuClick : ButtonListener
deriving DecidableEq

/-- The mobile menu: the two classes, the click listeners on the button (in
registration order), the number of close-on-link listeners on the nav-menu and
of close-outside listeners on the document, and whether the element
`#mobile-menu-styles` exists.  The button and the nav-menu are the first
elements of their class, and neither contains the other. -/
structure Menu where
  navMobileActive : Bool
  buttonActive : Bool
  buttonListeners : List ButtonListener
  navListeners : Nat
  documentListeners : Nat
  styleInjected : Bool
deriving DecidableEq

/-- The part of the page `main.js` works on: the forms in document order, the
`.success-message` banners present (each named by its creation number), the
pending timers in registration order, the current time in milliseconds, the
lines written by `console.log`, the field that has the focus (form and field
index), whether `querySelector` finds a `.mobile-menu-button` and a
`.nav-menu`, and the mobile menu. -/
structure Page where
  forms : List Form
  banners : List Nat
  bannersCreated : Nat
  timers : List Timer
  now : Nat
  console : List JSString
  focused : Option (Nat × Nat)
  hasMenuButton : Bool
  hasNavMenu : Bool
  menu : Menu

/-- `initFormValidation()`: `handleFormSubmit` becomes a `submit` listener of
every form; registering the same function again is ignored.  The `blur` and
`input` listeners it puts on the controls call `validateField` and
`clearErrors`. -/
def initFormValidation (p : Page) : Page :=
  { p with forms := p.forms.map (fun form =>
      if form.submitListeners.contains SubmitListener.handleFormSubmit then form
      else { form with
             submitListeners := form.submitListeners ++ [SubmitListener.handleFormSubmit] }) }

/-- `initContactForm()`: the form with id `contactForm`, when it has a
`.form-submit` control, gets a further `submit` listener that remembers the
control's label. -/
def initContactForm (p : Page) : Page :=
  match p.forms.findIdx? (fun form => form.id == "contactForm".toList) with
  | none => p
  | some i =>
    match p.forms.get? i with
    | none => p
    | some contactForm =>
      match contactForm.submitControl with
      | none => p
      | some submitButton =>
        { p with forms := p.forms.set i { contactForm with
            submitListeners := contactForm.submitListeners ++
              [SubmitListener.contactSubmit submitButton.textContent] } }

/-- `showFormSuccess()`: a new banner is inserted before the first form of the
document and a timer removes it 5000 ms later; without a form nothing is
inserted. -/
def showFormSuccess (p : Page) : Page :=
  match p.forms with
  | [] => p
  | _ :: _ =>
    { p with banners := p.banners ++ [p.bannersCreated],
             bannersCreated := p.bannersCreated + 1,
             timers := p.timers ++
               [{ due := p.now + 5000, action := TimerAction.removeBanner p.bannersCreated }] }

/-- `submitForm(form)`: logs the data and shows the success banner. -/
def submitForm (p : Page) : Page :=
  showFormSuccess { p with console := p.console ++ ["Form submitted with data:".toList] }

/-- `handleFormSubmit(e)` for a submit event on the form at index `i`: every
control is validated; `isValid` stays `true` only if every call returned a
truthy value; then either `submitForm` runs or the first control with class
`error` gets the focus. -/
def handleFormSubmit (i : Nat) (p : Page) : Page :=
  match p.forms.get? i with
  | none => p
  | some form =>
    let results := form.fields.map validateField
    let isValid := results.all (fun r => r.1 == some true)
    let form := { form with fields := results.map (fun r => r.2) }
    let p := { p with forms := p.forms.set i form }
    if isValid then submitForm p
    else
      match form.fields.findIdx? (fun f => f.errorClass) with
      | some j => { p with focused := some (i, j) }
      | none => p

/-- The `submit` listener of `initContactForm` on the form at index `i`: the
control shows `Sending...` and is disabled, and a timer is set for 2000 ms. -/
def contactSubmit (i : Nat) (originalButtonText : JSString) (p : Page) : Page :=
  match p.forms.get? i with
  | none => p
  | some contactForm =>
    { p with
      forms := p.forms.set i { contactForm with
        submitControl := contactForm.submitControl.map (fun _ =>
          { textContent := "Sending...".toList, disabled := true }) },
      timers := p.timers ++
        [{ due := p.now + 2000, action := TimerAction.finishContact i originalButtonText }] }

/-- `form.reset()`: every control takes its default value again. -/
def resetForm (form : Form) : Form :=
  { form with fields := form.fields.map (fun f => { f with value := f.defaultValue }) }

/-- The 2000 ms callback of the contact listener: success banner, reset of the
form, label and enabled state of the control restored. -/
def finishContact (i : Nat) (originalButtonText : JSString) (p : Page) : Page :=
  let p := showFormSuccess p
  match p.forms.get? i with
  | none => p
  | some contactForm =>
    let contactForm := resetForm contactForm
    { p with forms := p.forms.set i { contactForm with
        submitControl := contactForm.submitControl.map (fun _ =>
          { textContent := originalButtonText, disabled := false }) } }

/-- One listener of a `submit` event on the form at index `i`. -/
def runSubmitListener (i : Nat) (p : Page) : SubmitListener → Page
  | SubmitListener.handleFormSubmit => handleFormSubmit i p
  | SubmitListener.contactSubmit originalButtonText => contactSubmit i originalButtonText p

/-- A `submit` event on the form at index `i`: its listeners run one after the
other, in registration order. -/
def dispatchSubmit (i : Nat) (p : Page) : Page :=
  match p.forms.get? i with
  | none => p
  | some form => form.submitListeners.foldl (runSubmitListener i) p

/-- One timer callback. -/
def runTimer (p : Page) : TimerAction → Page
  | TimerAction.finishContact i originalButtonText => finishContact i originalButtonText p
  | TimerAction.removeBanner b => { p with banners := p.banners.filter (fun x => x != b) }

/-- The pending timer that fires next: the earliest due, the first registered
among equals. -/
def earliest : List Timer → Option Timer
  | [] => none
  | t :: ts =>
    match earliest ts with
    | none => some t
    | some u => if t.due ≤ u.due then some t else some u

/-- One turn of the event loop for timers: the next timer fires at its due
time; `none` when no timer is pending. -/
def fireNext (p : Page) : Option Page :=
  match earliest p.timers with
  | none => none
  | some t =>
    some (runTimer { p with timers := p.timers.erase t, now := max p.now t.due } t.action)

/-! ## Mobile menu -/

/-- `ComponentLoader.addMobileMenuStyles()`: the style element is appended
unless an element with its id exists. -/
def addMobileMenuStyles (m : Menu) : Menu :=
  if m.styleInjected then m else { m with styleInjected := true }

/-- `ComponentLoader.initializeMobileMenu()`, given whether `querySelector`
found the button and the nav-menu. -/
def initializeMobileMenu (buttonFound navFound : Bool) (m : Menu) : Menu :=
  if buttonFound && navFound then
    let m := addMobileMenuStyles m
    { m with buttonListeners := m.buttonListeners ++ [ButtonListener.loaderToggle],
             navListeners := m.navListeners + 1,
             documentListeners := m.documentListeners + 1 }
  else m

/-- `initMobileMenu()` of `main.js`, given whether `querySelector` found the
button and the nav-menu: `handleMobileMenuClick` is removed and added again,
and two more closing listeners are added. -/
def initMobileMenu (buttonFound navFound : Bool) (m : Menu) : Menu :=
  if buttonFound && navFound then
    { m with buttonListeners :=
               m.buttonListeners.erase ButtonListener.handleMobileMenuClick ++
                 [ButtonListener.handleMobileMenuClick],
             navListeners := m.navListeners + 1,
             documentListeners := m.documentListeners + 1 }
  else m

/-- Both classes toggled: the body of the loader's listener and, the button
and the nav-menu being found, of `handleMobileMenuClick`. -/
def toggleMenu (m : Menu) : Menu :=
  { m with navMobileActive := !m.navMobileActive, buttonActive := !m.buttonActive }

/-- Both classes removed: the body of the closing listeners. -/
def closeMenu (m : Menu) : Menu :=
  { m with navMobileActive := false, buttonActive := false }

/-- Where a click lands. -/
inductive ClickTarget where
  | menuButton : ClickTarget
  | navLink : ClickTarget
  | navOther : ClickTarget
  | outside : ClickTarget
deriving DecidableEq

/-- One click listener of the button; both toggle. -/
def runButtonListener (m : Menu) : ButtonListener → Menu
  | ButtonListener.loaderToggle => toggleMenu m
  | ButtonListener.handleMobileMenuClick => toggleMenu m

/-- A click event: the listeners of the target's element run in registration
order, then the event bubbles to the document, whose listeners close the menu
when the target is in neither the button nor the nav-menu. -/
def click (target : ClickTarget) (m : Menu) : Menu :=
  match target with
  | ClickTarget.menuButton => m.buttonListeners.foldl runButtonListener m
  | ClickTarget.navLink => if m.navListeners = 0 then m else closeMenu m
  | ClickTarget.navOther => m
  | ClickTarget.outside => if m.documentListeners = 0 then m else closeMenu m

/-- `initializeApp()`, on the modelled part of the page: the first console
line, `initFormValidation`, `initContactForm`, `initMobileMenu` and the last
console line.  `initSmoothScrolling`, `initScrollAnimations` and
`initLoadingAnimations` write styles, classes and anchor listeners only. -/
def initializeApp (p : Page) : Page :=
  let p := { p with console := p.console ++ ["Initializing application...".toList] }
  let p := initFormValidation p
  let p := initContactForm p
  let p := { p with menu := initMobileMenu p.hasMenuButton p.hasNavMenu p.menu }
  { p with console := p.console ++ ["Application initialized successfully".toList] }

/-! ## Document and fragment loading (`components.js`) -/

/-- The elements of the document below the root element, as a forest in
first-child / next-sibling form: an element has a tag, an id, a class list,
its children and the siblings that follow it. -/
inductive Dom where
  | nil : Dom
  | elem (tag id : JSString) (classes : List JSString) (children next : Dom) : Dom
deriving DecidableEq

namespace Dom

/-- The siblings of `d` followed by the siblings of `e`. -/
def append : Dom → Dom → Dom
  | nil, e => e
  | elem tag id classes children next, e => elem tag id classes children (append next e)

/-- `document.getElementById(id)` finds an element. -/
def hasId (id : JSString) : Dom → Bool
  | nil => false
  | elem _ i _ children next => i == id || hasId id children || hasId id next

/-- Number of elements with the given id. -/
def countId (id : JSString) : Dom → Nat
  | nil => 0
  | elem _ i _ children next =>
    (if i = id then 1 else 0) + countId id children + countId id next

/-- `document.querySelector('.' + cls)` finds an element. -/
def hasClass (cls : JSString) : Dom → Bool
  | nil => false
  | elem _ _ classes children next =>
    classes.contains cls || hasClass cls children || hasClass cls next

/-- The assignment `document.getElementById(id).outerHTML = ...`, the markup
being parsed to `fragment`: the first element with the id, in document order,
is replaced, children included, by the nodes of the fragment. -/
def replaceById (id : JSString) (fragment : Dom) : Dom → Dom
  | nil => nil
  | elem tag i classes children next =>
    if i = id then append fragment next
    else if hasId id children then elem tag i classes (replaceById id fragment children) next
    else elem tag i classes children (replaceById id fragment next)

end Dom

/-- What `components.js` works on: the path of the location, the document, the
mobile menu, the console lines and the custom events dispatched on the
document. -/
structure Browser where
  pathname : JSString
  body : Dom
  menu : Menu
  console : List JSString
  events : List JSString

/-- How a `fetch` ends: with a response (status and body text) or rejected. -/
inductive FetchOutcome where
  | response (status : Nat) (body : JSString) : FetchOutcome
  | failure : FetchOutcome

/-- What the `try` block of `loadComponent` can throw. -/
inductive LoadError where
  | network : LoadError
  | failedToLoad (componentName : JSString) (status : Nat) : LoadError

/-- `response.ok`: the status is in the range 200 to 299. -/
def responseOk (status : Nat) : Bool :=
  200 ≤ status && status ≤ 299

/-- The `try` block of `ComponentLoader.loadComponent`. -/
def fetchText (outcome : FetchOutcome) (componentName : JSString) :
    Except LoadError JSString :=
  match outcome with
  | FetchOutcome.failure => Except.error LoadError.network
  | FetchOutcome.response status body =>
    if !responseOk status then Except.error (LoadError.failedToLoad componentName status)
    else Except.ok body

/-- `ComponentLoader.loadComponent(componentName)`: the `catch` clause logs
and returns `null` (`none`). -/
def loadComponent (outcome : FetchOutcome) (componentName : JSString) (b : Browser) :
    Except LoadError (Option JSString × Browser) :=
  match fetchText outcome componentName with
  | Except.ok text => Except.ok (some text, b)
  | Except.error _ =>
    Except.ok (none, { b with
      console := b.console ++ ["Error loading ".toList ++ componentName ++ ":".toList] })

/-- `ComponentLoader.insertComponent(content, placeholderId)`; `parse` is the
HTML parser behind `outerHTML`. -/
def insertComponent (parse : JSString → Dom) (content placeholderId : JSString)
    (b : Browser) : Bool × Browser :=
  if Dom.hasId placeholderId b.body then
    (true, { b with body := Dom.replaceById placeholderId (parse content) b.body })
  else
    (false, { b with console := b.console ++
      ["Placeholder ".toList ++ placeholderId ++ " not found".toList] })

/-- `ComponentLoader.loadHeader()`, for one outcome of the fetch; an empty
text is falsy like `null`. -/
def loadHeader (parse : JSString → Dom) (outcome : FetchOutcome) (b : Browser) :
    Except LoadError Browser :=
  match loadComponent outcome "header".toList b with
  | Except.error e => Except.error e
  | Except.ok (none, b) => Except.ok b
  | Except.ok (some content, b) =>
    if content.isEmpty then Except.ok b
    else
      let updatedContent := updateNavigation b.pathname content "header".toList
      match insertComponent parse updatedContent "header-placeholder".toList b with
      | (true, b) =>
        Except.ok { b with
          menu := initializeMobileMenu (Dom.hasClass "mobile-menu-button".toList b.body)
            (Dom.hasClass "nav-menu".toList b.body) b.menu,
          console := b.console ++ ["Header loaded successfully".toList] }
      | (false, b) => Except.ok b

/-- `ComponentLoader.loadFooter()`, for one outcome of the fetch. -/
def loadFooter (parse : JSString → Dom) (outcome : FetchOutcome) (b : Browser) :
    Except LoadError Browser :=
  match loadComponent outcome "footer".toList b with
  | Except.error e => Except.error e
  | Except.ok (none, b) => Except.ok b
  | Except.ok (some content, b) =>
    if content.isEmpty then Except.ok b
    else
      let updatedContent := updateNavigation b.pathname content "footer".toList
      match insertComponent parse updatedContent "footer-placeholder".toList b with
      | (true, b) =>
        Except.ok { b with console := b.console ++ ["Footer loaded successfully".toList] }
      | (false, b) => Except.ok b

/-- `ComponentLoader.loadAllComponents()`: `Promise.all` of the two loads.  Each
load does its work on the document in one piece once its fetch has ended, so
the runs differ in which of the two comes first (`headerFirst`). -/
def loadAllComponents (parse : JSString → Dom) (headerOutcome footerOutcome : FetchOutcome)
    (headerFirst : Bool) (b : Browser) : Except LoadError Browser :=
  if headerFirst then
    match loadHeader parse headerOutcome b with
    | Except.error e => Except.error e
    | Except.ok b => loadFooter parse footerOutcome b
  else
    match loadFooter parse footerOutcome b with
    | Except.error e => Except.error e
    | Except.ok b => loadHeader parse headerOutcome b

/-- The `DOMContentLoaded` listener of `components.js`: after
`loadAllComponents` the event `componentsLoaded` is dispatched on the
document. -/
def onDOMContentLoaded (parse : JSString → Dom) (headerOutcome footerOutcome : FetchOutcome)
    (headerFirst : Bool) (b : Browser) : Except LoadError Browser :=
  match loadAllComponents parse headerOutcome footerOutcome headerFirst b with
  | Except.error e => Except.error e
  | Except.ok b => Except.ok { b with events := b.events ++ ["componentsLoaded".toList] }

/-! ## Scroll listener and `throttle` (`main.js`) -/

/-- What the scroll listener works on: whether `querySelector('header')` finds
an element, whether that element has the class `scrolled`, `window.scrollY`,
the variable `inThrottle` of the closure made by `throttle` (`undefined` is
`false`), the due times of the pending callbacks that reset it, oldest first,
and the current time in milliseconds.  Positions and times are finite doubles
in the browser; they are taken as rationals, which every finite double is. -/
structure ScrollPage where
  hasHeader : Bool
  headerScrolled : Bool
  scrollY : ℚ
  inThrottle : Bool
  timers : List ℚ
  now : ℚ
deriving DecidableEq

/-- The function handed to `throttle`: with a header, the class `scrolled` is
added when `scrollY > 100` and removed otherwise. -/
def onScroll (p : ScrollPage) : ScrollPage :=
  if p.hasHeader then { p with headerScrolled := decide (p.scrollY > 100) } else p

/-- The function returned by `throttle(func, limit)`: outside the throttle
`func` runs, `inThrottle` is set and a timer is armed to reset it after
`limit` ms; inside the throttle the call does nothing. -/
def throttle (func : ScrollPage → ScrollPage) (limit : ℚ) (p : ScrollPage) : ScrollPage :=
  if !p.inThrottle then
    let p := func p
    { p with inThrottle := true, timers := p.timers ++ [p.now + limit] }
  else p

/-- What the event loop hands to the page: a scroll event at a time with the
scroll position it brings, or the run, at a time, of the oldest pending
callback that resets `inThrottle`. -/
inductive ScrollStep where
  | scroll (time position : ℚ) : ScrollStep
  | reset (time : ℚ) : ScrollStep
deriving DecidableEq

/-- One step of the event loop, `none` when the browser cannot take it: time
does not run backwards, and `setTimeout` runs a callback at its due time or
later, never earlier, and only if one is pending.  A scroll event goes to the
listener registered on `window`, which is `throttle(..., 100)`. -/
def scrollStep (p : ScrollPage) : ScrollStep → Option ScrollPage
  | ScrollStep.scroll t y =>
    if p.now ≤ t then some (throttle onScroll 100 { p with now := t, scrollY := y })
    else none
  | ScrollStep.reset t =>
    match p.timers with
    | [] => none
    | due :: rest =>
      if p.now ≤ t ∧ due ≤ t then
        some { p with now := t, inThrottle := false, timers := rest }
      else none

/-- A run of the event loop over the given steps, oldest first. -/
def runScroll : List ScrollStep → ScrollPage → Option ScrollPage
  | [], p => some p
  | s :: rest, p =>
    match scrollStep p s with
    | none => none
    | some p1 => runScroll rest p1

/-- The scroll events, with time and position, that arrive outside the
throttle: starting outside (`true`) or inside (`false`), an event outside is
let through and closes the throttle, an event inside is dropped, and a reset
opens the throttle again. -/
def admitted : Bool → List ScrollStep → List (ℚ × ℚ)
  | _, [] => []
  | true, ScrollStep.scroll t y :: rest => (t, y) :: admitted false rest
  | false, ScrollStep.scroll _ _ :: rest => admitted false rest
  | _, ScrollStep.reset _ :: rest => admitted true rest

/-- Each event comes `limit` ms or more after the one before it. -/
def spaced (limit : ℚ) : List (ℚ × ℚ) → Bool
  | [] => true
  | [_] => true
  | a :: b :: l => decide (a.1 + limit ≤ b.1) && spaced limit (b :: l)

/-- The class after a run of the handler on the last of the given events, or
`initial` when there is none. -/
def classAfter (events : List (ℚ × ℚ)) (initial : Bool) : Bool :=
  match events.getLast? with
  | some e => decide (e.2 > 100)
  | none => initial

/-- The throttle and its timer go together: inside the throttle exactly one
reset is pending, due at `bound`; outside none is pending and the time
`bound` has been reached. -/
def ThrottleInv (p : ScrollPage) (bound : ℚ) : Prop :=
  (p.inThrottle = true ∧ p.timers = [bound]) ∨
  (p.inThrottle = false ∧ p.timers = [] ∧ bound ≤ p.now)

/-! ## Start-up of `main.js` -/

/-- `document.querySelector(tag)` finds an element with the tag. -/
def Dom.hasTag (tag : JSString) : Dom → Bool
  | Dom.nil => false
  | Dom.elem t _ _ children next => t == tag || Dom.hasTag tag children || Dom.hasTag tag next

/-- The start-up state of `main.js`: the document, the page `initializeApp`
works on, the number of `componentsLoaded` listeners on the document (each
calls `initializeApp`) and the due times of the pending fallback timers. -/
structure Boot where
  document : Dom
  page : Page
  componentsLoadedListeners : Nat
  fallbackTimers : List Nat

/-- The `DOMContentLoaded` listener of `main.js`: with a placeholder in the
document a `componentsLoaded` listener and a 3000 ms timer are armed, without
one `initializeApp` runs at once. -/
def mainOnDOMContentLoaded (s : Boot) : Boot :=
  if Dom.hasId "header-placeholder".toList s.document ||
      Dom.hasId "footer-placeholder".toList s.document then
    { s with componentsLoadedListeners := s.componentsLoadedListeners + 1,
             fallbackTimers := s.fallbackTimers ++ [s.page.now + 3000] }
  else { s with page := initializeApp s.page }

/-- The event `componentsLoaded` reaches the document: every listener calls
`initializeApp`. -/
def dispatchComponentsLoaded (s : Boot) : Boot :=
  let page := (List.range s.componentsLoadedListeners).foldl (fun p _ => initializeApp p) s.page
  { s with page := page }

/-- The next fallback timer fires: without a `header` and without a `footer`
element in the document it warns and calls `initializeApp`. -/
def fireFallback (s : Boot) : Boot :=
  match s.fallbackTimers with
  | [] => s
  | due :: rest =>
    let s := { s with fallbackTimers := rest,
                      page := { s.page with now := max s.page.now due } }
    if !Dom.hasTag "header".toList s.document && !Dom.hasTag "footer".toList s.document then
      let warned := s.page.console ++
        ["Components may have failed to load, initializing anyway...".toList]
      { s with page := initializeApp { s.page with console := warned } }
    else s

/-- When the fallback timer comes in a page load: before either fragment has
been handled, between the two, or after `componentsLoaded` was dispatched. -/
inductive TimerSlot where
  | beforeLoads : TimerSlot
  | betweenLoads : TimerSlot
  | afterEvent : TimerSlot
deriving DecidableEq

/-- One page load: both scripts get `DOMContentLoaded`; the loader handles the
two fragments in either order and then dispatches `componentsLoaded` (the
steps of `loadAllComponents` and `onDOMContentLoaded`); the fallback timer of
`main.js` fires in the given slot. -/
def pageLoad (parse : JSString → Dom) (headerOutcome footerOutcome : FetchOutcome)
    (headerFirst : Bool) (slot : TimerSlot) (b : Browser) (page : Page) :
    Except LoadError Boot :=
  let s := mainOnDOMContentLoaded
    { document := b.body, page := page, componentsLoadedListeners := 0, fallbackTimers := [] }
  let s := if slot = TimerSlot.beforeLoads then fireFallback s else s
  match (if headerFirst then loadHeader parse headerOutcome b
         else loadFooter parse footerOutcome b) with
  | Except.error e => Except.error e
  | Except.ok b =>
    let s := { s with document := b.body }
    let s := if slot = TimerSlot.betweenLoads then fireFallback s else s
    match (if headerFirst then loadFooter parse footerOutcome b
           else loadHeader parse headerOutcome b) with
    | Except.error e => Except.error e
    | Except.ok b =>
      let s := dispatchComponentsLoaded { s with document := b.body }
      Except.ok (if slot = TimerSlot.afterEvent then fireFallback s else s)

/-- Number of calls of `initializeApp`, read off its first console line. -/
def initCount (p : Page) : Nat :=
  p.console.count "Initializing application...".toList

/-- The number of `initializeApp` calls a page load ends with, `none` if it
raised. -/
def initCountAfter (r : Except LoadError Boot) : Option Nat :=
  match r with
  | Except.ok s => some (initCount s.page)
  | Except.error _ => none

/-! ## Sample pages -/

/-- A closed mobile menu without listeners or injected styles. -/
def closedMenu : Menu :=
  { navMobileActive := false, buttonActive := false, buttonListeners := [],
    navListeners := 0, documentListeners := 0, styleInjected := false }

/-- A control with a name and a value, empty by default, without label, error
class or error container. -/
def plainField (name value : JSString) : Field :=
  { name := name, value := value, defaultValue := [], errorClass := false,
    errorContainer := none, label := none }

/-- A page at time 0 whose only form is `#contactForm`, with one control and a
`.form-submit` button labelled `Send Message`. -/
def contactPage (field : Field) : Page :=
  { forms := [{ id := "contactForm".toList, fields := [field],
                submitControl := some { textContent := "Send Message".toList, disabled := false },
                submitListeners := [] }],
    banners := [], bannersCreated := 0, timers := [], now := 0, console := [],
    focused := none, hasMenuButton := false, hasNavMenu := false, menu := closedMenu }

/-- The values of the controls of every form. -/
def fieldValues (p : Page) : List (List JSString) :=
  p.forms.map (fun form => form.fields.map (fun f => f.value))

/-- The `.form-submit` control of every form. -/
def submitControls (p : Page) : List (Option Control) :=
  p.forms.map (fun form => form.submitControl)

/-- Error class and error text of the controls of every form. -/
def fieldErrors (p : Page) : List (List (Bool × Option JSString)) :=
  p.forms.map (fun form => form.fields.map (fun f => (f.errorClass, f.errorContainer)))

/-- The element every sample fragment parses to: `<header class="header">`. -/
def sampleParse (_markup : JSString) : Dom :=
  Dom.elem "header".toList [] ["header".toList] Dom.nil Dom.nil

/-- A page on `/index.html` whose document holds the two placeholders, the
header placeholder with a child element. -/
def placeholderPage : Browser :=
  { pathname := "/index.html".toList,
    body := Dom.elem "div".toList "header-placeholder".toList []
      (Dom.elem "span".toList [] [] Dom.nil Dom.nil)
      (Dom.elem "main".toList [] [] Dom.nil
        (Dom.elem "div".toList "footer-placeholder".toList [] Dom.nil Dom.nil)),
    menu := closedMenu, console := [], events := [] }

/-- A page on `/index.html` without placeholders. -/
def plainPage : Browser :=
  { pathname := "/index.html".toList,
    body := Dom.elem "main".toList [] [] Dom.nil Dom.nil,
    menu := closedMenu, console := [], events := [] }

/-- The document of the browser after a load, `none` if the load raised. -/
def bodyAfter (r : Except LoadError Browser) : Option Dom :=
  match r with
  | Except.ok b => some b.body
  | Except.error _ => none

/-- A page at time 0 with a header that does not have the class `scrolled`,
scrolled to the top, outside the throttle. -/
def freshScrollPage : ScrollPage :=
  { hasHeader := true, headerScrolled := false, scrollY := 0, inThrottle := false,
    timers := [], now := 0 }

/-- The fresh page after a scroll to 150 at 0 ms, the reset at 100 ms and a
scroll back to 100 at 100 ms. -/
def scrolledBackPage : ScrollPage :=
  { hasHeader := true, headerScrolled := false, scrollY := 100, inThrottle := true,
    timers := [200], now := 100 }

/-- A page at time 0 without forms, banners, timers or menu elements. -/
def emptyPage : Page :=
  { forms := [], banners := [], bannersCreated := 0, timers := [], now := 0, console := [],
    focused := none, hasMenuButton := false, hasNavMenu := false, menu := closedMenu }

/-! ## Occurrences that cannot overlap -/

/-- Two strings agree on their common length: one is a prefix of the other. -/
def compatible (a b : JSString) : Bool :=
  a.isPrefixOf b || b.isPrefixOf a

/-- An occurrence of `q` never overlaps an occurrence of `m` in part: `q` laid
over `m` at any non-zero offset clashes with it on some shared position, and
at offset zero it clashes unless the two strings are equal. -/
def isolated (q m : JSString) : Bool :=
  (q == m || !compatible q m) &&
  ((List.range q.length).all (fun e => e == 0 || !compatible (q.drop e) m) &&
   (List.range m.length).all (fun d => d == 0 || !compatible q (m.drop d)))

/-- The href literals `updateNavigation` looks for and writes. -/
def hrefLiterals : List JSString :=
  [ "href=\"/\"".toList, "href=\"#features\"".toList, "href=\"#how-it-works\"".toList,
    "href=\"#benefits\"".toList, "href=\"/pages/contact.html\"".toList,
    "href=\"../index.html\"".toList, "href=\"../index.html#features\"".toList,
    "href=\"../index.html#how-it-works\"".toList, "href=\"../index.html#benefits\"".toList,
    "href=\"contact.html\"".toList, "href=\"index.html\"".toList,
    "href=\"pages/contact.html\"".toList ]

/-- The five rewrites of the header on a contact page, in program order. -/
def contactHeaderRules : List (JSString × JSString) :=
  [ ("href=\"/\"".toList, "href=\"../index.html\"".toList),
    ("href=\"#features\"".toList, "href=\"../index.html#features\"".toList),
    ("href=\"#how-it-works\"".toList, "href=\"../index.html#how-it-works\"".toList),
    ("href=\"#benefits\"".toList, "href=\"../index.html#benefits\"".toList),
    ("href=\"/pages/contact.html\"".toList, "href=\"contact.html\"".toList) ]

/-- The four rewrites of the footer on a contact page, in program order. -/
def contactFooterRules : List (JSString × JSString) :=
  [ ("href=\"/\"".toList, "href=\"../index.html\"".toList),
    ("href=\"#features\"".toList, "href=\"../index.html#features\"".toList),
    ("href=\"#benefits\"".toList, "href=\"../index.html#benefits\"".toList),
    ("href=\"/pages/contact.html\"".toList, "href=\"contact.html\"".toList) ]

/-- The two rewrites applied, to header and footer alike, on every other page. -/
def homeRules : List (JSString × JSString) :=
  [ ("href=\"/\"".toList, "href=\"index.html\"".toList),
    ("href=\"/pages/contact.html\"".toList, "href=\"pages/contact.html\"".toList) ]

/-- The string `t` is `s` with the first occurrence of `p` replaced by `r`, every
other character kept; `t` is `s` itself when `p` does not occur. -/
def FirstRewrite (p r s t : JSString) : Prop :=
  (includes s p = false ∧ t = s) ∨
  ∃ pre post, s = pre ++ (p ++ post) ∧ t = pre ++ (r ++ post) ∧
    ∀ pre1 post1, s = pre1 ++ (p ++ post1) → pre.length ≤ pre1.length

/-! ## Lemmas on occurrences -/

theorem compatible_of_isPrefixOf_append {q m post : JSString}
    (h : q.isPrefixOf (m ++ post) = true) : compatible q m = true := by
  rw [List.isPrefixOf_iff_prefix] at h
  have hor := List.prefix_or_prefix_of_prefix h (List.prefix_append m post)
  simpa [compatible, List.isPrefixOf_iff_prefix] using hor

theorem isolated_zero {q m : JSString} (h : isolated q m = true) :
    q = m ∨ compatible q m = false := by
  simp only [isolated, Bool.and_eq_true, Bool.or_eq_true, beq_iff_eq,
    Bool.not_eq_true_eq_eq_false] at h
  rcases h.1 with h1 | h1
  · exact Or.inl h1
  · right; simpa using h1

theorem isolated_left {q m : JSString} (h : isolated q m = true) {e : Nat}
    (h1 : 1 ≤ e) (h2 : e < q.length) : compatible (q.drop e) m = false := by
  simp only [isolated, Bool.and_eq_true, List.all_eq_true, List.mem_range,
    Bool.or_eq_true, beq_iff_eq] at h
  rcases h.2.1 e h2 with h3 | h3
  · omega
  · simpa using h3

theorem isolated_right {q m : JSString} (h : isolated q m = true) {d : Nat}
    (h1 : 1 ≤ d) (h2 : d < m.length) : compatible q (m.drop d) = false := by
  simp only [isolated, Bool.and_eq_true, List.all_eq_true, List.mem_range,
    Bool.or_eq_true, beq_iff_eq] at h
  rcases h.2.2 d h2 with h3 | h3
  · omega
  · simpa using h3

/-- An occurrence that starts in a non-empty `pre` cannot run into `m`. -/
theorem isPrefixOf_append_isolated {q m : JSString} (h : isolated q m = true)
    (pre post : JSString) (hpre : pre ≠ []) :
    q.isPrefixOf (pre ++ (m ++ post)) = q.isPrefixOf pre := by
  rw [Bool.eq_iff_iff, List.isPrefixOf_iff_prefix, List.isPrefixOf_iff_prefix]
  constructor
  · intro hq
    by_cases hlen : q.length ≤ pre.length
    · exact List.prefix_of_prefix_length_le hq (List.prefix_append _ _) hlen
    · exfalso
      have hlt : pre.length < q.length := by omega
      have hpq : pre <+: q :=
        List.prefix_of_prefix_length_le (List.prefix_append _ _) hq (by omega)
      obtain ⟨t, ht⟩ := hpq
      have hdrop : q.drop pre.length = t := by
        rw [← ht]; simp
      rw [← ht, List.prefix_append_right_inj] at hq
      have hc := compatible_of_isPrefixOf_append
        (List.isPrefixOf_iff_prefix.mpr hq)
      have hpos : 1 ≤ pre.length := by
        cases pre with
        | nil => exact absurd rfl hpre
        | cons a l => simp
      have hf := isolated_left h hpos hlt
      rw [hdrop] at hf
      rw [hf] at hc
      exact Bool.noConfusion hc
  · intro hq
    exact hq.trans (List.prefix_append _ _)

theorem countOcc_append_isolated {q m : JSString} (h : isolated q m = true)
    (pre post : JSString) :
    countOcc q (pre ++ (m ++ post)) = countOcc q pre + countOcc q (m ++ post) := by
  induction pre with
  | nil => simp [countOcc]
  | cons a l ih =>
    have h1 := isPrefixOf_append_isolated h (a :: l) post (by simp)
    simp only [List.cons_append] at h1 ⊢
    simp only [countOcc, h1, ih]
    omega

theorem countOcc_tail_isolated {q m : JSString} (h : isolated q m = true)
    (post : JSString) :
    ∀ (t u : JSString), u ≠ [] → m = u ++ t → countOcc q (t ++ post) = countOcc q post := by
  intro t
  induction t with
  | nil => intro u _ _; simp
  | cons c t ih =>
    intro u hu hm
    have hd : m.drop u.length = c :: t := by rw [hm]; simp
    have hpos : 1 ≤ u.length := by
      cases u with
      | nil => exact absurd rfl hu
      | cons a l => simp
    have hlt : u.length < m.length := by rw [hm]; simp
    have hf := isolated_right h hpos hlt
    rw [hd] at hf
    have hnot : q.isPrefixOf (c :: t ++ post) = false := by
      cases hq : q.isPrefixOf (c :: t ++ post) with
      | false => rfl
      | true =>
        have hc := compatible_of_isPrefixOf_append hq
        rw [hf] at hc
        exact Bool.noConfusion hc
    have ih1 := ih (u ++ [c]) (by simp) (by rw [hm]; simp)
    simp only [List.cons_append] at hnot ⊢
    simp [countOcc, hnot, ih1]

theorem countOcc_head_isolated {q m : JSString} (h : isolated q m = true)
    (hm : m ≠ []) (post : JSString) :
    countOcc q (m ++ post) = (if q = m then 1 else 0) + countOcc q post := by
  cases m with
  | nil => exact absurd rfl hm
  | cons c t =>
    have ht := countOcc_tail_isolated h post t [c] (by simp) (by simp)
    simp only [List.cons_append, countOcc, ht]
    congr 1
    by_cases hq : q = c :: t
    · subst hq
      have : (c :: t).isPrefixOf (c :: (t ++ post)) = true := by
        rw [List.isPrefixOf_iff_prefix]
        exact ⟨post, by simp⟩
      simp [this]
    · rcases isolated_zero h with h0 | h0
      · exact absurd h0 hq
      · have hnot : q.isPrefixOf (c :: (t ++ post)) = false := by
          cases hp : q.isPrefixOf (c :: (t ++ post)) with
          | false => rfl
          | true =>
            have hc := @compatible_of_isPrefixOf_append q (c :: t) post (by simpa using hp)
            rw [h0] at hc
            exact Bool.noConfusion hc
        simp [hnot, hq]

/-- Occurrences of `q` in a string built around one copy of `m`. -/
theorem countOcc_around {q m : JSString} (h : isolated q m = true) (hm : m ≠ [])
    (pre post : JSString) :
    countOcc q (pre ++ (m ++ post)) =
      countOcc q pre + (if q = m then 1 else 0) + countOcc q post := by
  rw [countOcc_append_isolated h, countOcc_head_isolated h hm]
  omega

theorem includes_eq_false_iff {q : JSString} (hq : q ≠ []) (s : JSString) :
    includes s q = false ↔ countOcc q s = 0 := by
  induction s with
  | nil =>
    cases q with
    | nil => exact absurd rfl hq
    | cons a l => simp [includes, countOcc, List.isPrefixOf]
  | cons c cs ih =>
    simp only [includes, countOcc, Bool.or_eq_false_iff, ih]
    by_cases hp : q.isPrefixOf (c :: cs) = true
    · simp [hp]
    · simp [hp]

theorem replace_of_countOcc_zero {p : JSString} (hp : p ≠ []) (r : JSString) :
    ∀ s : JSString, countOcc p s = 0 → replace s p r = s := by
  intro s
  induction s with
  | nil =>
    intro _
    cases p with
    | nil => exact absurd rfl hp
    | cons a l => simp [replace, List.isPrefixOf]
  | cons c cs ih =>
    intro h
    simp only [countOcc, Nat.add_eq_zero] at h
    have h1 : p.isPrefixOf (c :: cs) = false := by
      cases hq : p.isPrefixOf (c :: cs) with
      | false => rfl
      | true => simp [hq] at h
    simp [replace, h1, ih h.2]

theorem replace_of_countOcc_pos (p r : JSString) :
    ∀ s : JSString, countOcc p s ≠ 0 →
      ∃ pre post, s = pre ++ (p ++ post) ∧ replace s p r = pre ++ (r ++ post) ∧
        ∀ pre1 post1, s = pre1 ++ (p ++ post1) → pre.length ≤ pre1.length := by
  intro s
  induction s with
  | nil => intro h; simp [countOcc] at h
  | cons c cs ih =>
    intro h
    by_cases hp : p.isPrefixOf (c :: cs) = true
    · refine ⟨[], (c :: cs).drop p.length, ?_, ?_, ?_⟩
      · have := List.prefix_iff_eq_append.mp (List.isPrefixOf_iff_prefix.mp hp)
        simpa using this.symm
      · simp [replace, hp]
      · intro pre1 post1 _; simp
    · have hcs : countOcc p cs ≠ 0 := by
        simpa [countOcc, hp] using h
      obtain ⟨pre, post, h1, h2, h3⟩ := ih hcs
      refine ⟨c :: pre, post, by simp [h1], ?_, ?_⟩
      · simp only [replace, hp]
        simp [h2]
      · intro pre1 post1 heq
        cases pre1 with
        | nil =>
          exfalso
          apply hp
          rw [List.isPrefixOf_iff_prefix, heq]
          exact ⟨post1, by simp⟩
        | cons a l =>
          simp only [List.cons_append, List.cons.injEq] at heq
          have := h3 l post1 heq.2
          simp only [List.length_cons]
          omega

/-- How one `replace` changes the number of occurrences of a literal `q` that
cannot overlap the pattern or the replacement. -/
theorem countOcc_replace {q p r : JSString} (hqp : isolated q p = true)
    (hqr : isolated q r = true) (hp : p ≠ []) (hr : r ≠ []) (s : JSString) :
    countOcc q (replace s p r) + (if q = p then min 1 (countOcc p s) else 0) =
      countOcc q s + (if q = r then min 1 (countOcc p s) else 0) := by
  by_cases h0 : countOcc p s = 0
  · rw [replace_of_countOcc_zero hp r s h0, h0]
    simp
  · obtain ⟨pre, post, h1, h2, _⟩ := replace_of_countOcc_pos p r s h0
    have hmin : min 1 (countOcc p s) = 1 := by omega
    rw [h2, hmin, h1, countOcc_around hqp hp, countOcc_around hqr hr]
    by_cases e1 : q = p <;> by_cases e2 : q = r <;> simp [e1, e2] <;> omega

theorem firstRewrite_replace {p : JSString} (hp : p ≠ []) (r s : JSString) :
    FirstRewrite p r s (replace s p r) := by
  by_cases h0 : countOcc p s = 0
  · left
    exact ⟨(includes_eq_false_iff hp s).mpr h0, replace_of_countOcc_zero hp r s h0⟩
  · right
    obtain ⟨pre, post, h1, h2, h3⟩ := replace_of_countOcc_pos p r s h0
    exact ⟨pre, post, h1, h2, h3⟩

theorem countOcc_pos_of_occurrence {p : JSString} (hp : p ≠ []) (pre post : JSString) :
    countOcc p (pre ++ (p ++ post)) ≠ 0 := by
  induction pre with
  | nil =>
    cases p with
    | nil => exact absurd rfl hp
    | cons c t =>
      have hpre : (c :: t).isPrefixOf (c :: t ++ post) = true := by
        rw [List.isPrefixOf_iff_prefix]
        exact List.prefix_append _ _
      simp only [List.nil_append, List.cons_append] at hpre ⊢
      simp only [countOcc, hpre, if_true]
      omega
  | cons a l ih =>
    simp only [List.cons_append, countOcc]
    intro h
    exact ih (Nat.eq_zero_of_add_eq_zero_left h)

/-- The relation `FirstRewrite` has one result, the one `replace` computes. -/
theorem firstRewrite_unique {p : JSString} (hp : p ≠ []) (r s t : JSString)
    (h : FirstRewrite p r s t) : t = replace s p r := by
  rcases h with ⟨hinc, ht⟩ | ⟨pre, post, hs, ht, hmin⟩
  · rw [ht, replace_of_countOcc_zero hp r s ((includes_eq_false_iff hp s).mp hinc)]
  · have hpos : countOcc p s ≠ 0 := by
      rw [hs]
      exact countOcc_pos_of_occurrence hp pre post
    obtain ⟨pre1, post1, hs1, hr1, hmin1⟩ := replace_of_countOcc_pos p r s hpos
    have hlen : pre.length = pre1.length :=
      Nat.le_antisymm (hmin pre1 post1 hs1) (hmin1 pre post hs)
    have heq : pre ++ (p ++ post) = pre1 ++ (p ++ post1) := by rw [← hs, ← hs1]
    obtain ⟨e1, e2⟩ := List.append_inj heq hlen
    have e3 : post = post1 := List.append_cancel_left e2
    rw [ht, hr1, e1, e3]

set_option maxRecDepth 1000000 in
theorem hrefLiterals_isolated :
    ∀ q ∈ hrefLiterals, ∀ m ∈ hrefLiterals, isolated q m = true := by
  decide

theorem hrefLiterals_ne_nil : ∀ q ∈ hrefLiterals, q ≠ [] := by
  decide

theorem countOcc_replace_same {p r : JSString} (hp : p ∈ hrefLiterals)
    (hr : r ∈ hrefLiterals) (hne : p ≠ r) (s : JSString) :
    countOcc p (replace s p r) = countOcc p s - 1 := by
  have h := countOcc_replace (hrefLiterals_isolated p hp p hp)
    (hrefLiterals_isolated p hp r hr) (hrefLiterals_ne_nil p hp)
    (hrefLiterals_ne_nil r hr) s
  simp only [if_true, if_neg hne] at h
  omega

theorem countOcc_replace_other {q p r : JSString} (hq : q ∈ hrefLiterals)
    (hp : p ∈ hrefLiterals) (hr : r ∈ hrefLiterals) (h1 : q ≠ p) (h2 : q ≠ r)
    (s : JSString) : countOcc q (replace s p r) = countOcc q s := by
  have h := countOcc_replace (hrefLiterals_isolated q hq p hp)
    (hrefLiterals_isolated q hq r hr) (hrefLiterals_ne_nil p hp)
    (hrefLiterals_ne_nil r hr) s
  simpa [h1, h2] using h

theorem countOcc_replace_target {p r : JSString} (hp : p ∈ hrefLiterals)
    (hr : r ∈ hrefLiterals) (hne : r ≠ p) (s : JSString) :
    countOcc r (replace s p r) = countOcc r s + min 1 (countOcc p s) := by
  have h := countOcc_replace (hrefLiterals_isolated r hr p hp)
    (hrefLiterals_isolated r hr r hr) (hrefLiterals_ne_nil p hp)
    (hrefLiterals_ne_nil r hr) s
  simpa [hne] using h

theorem updateNavigation_header_contact (currentPath content : JSString)
    (h : includes currentPath "contact.html".toList = true) :
    updateNavigation currentPath content "header".toList =
      replace (replace (replace (replace (replace content
        "href=\"/\"".toList "href=\"../index.html\"".toList)
        "href=\"#features\"".toList "href=\"../index.html#features\"".toList)
        "href=\"#how-it-works\"".toList "href=\"../index.html#how-it-works\"".toList)
        "href=\"#benefits\"".toList "href=\"../index.html#benefits\"".toList)
        "href=\"/pages/contact.html\"".toList "href=\"contact.html\"".toList := by
  have hne : ¬ ("header".toList = "footer".toList) := by decide
  simp only [updateNavigation, h, if_true, if_neg hne]

theorem updateNavigation_footer_contact (currentPath content : JSString)
    (h : includes currentPath "contact.html".toList = true) :
    updateNavigation currentPath content "footer".toList =
      replace (replace (replace (replace content
        "href=\"/\"".toList "href=\"../index.html\"".toList)
        "href=\"#features\"".toList "href=\"../index.html#features\"".toList)
        "href=\"#benefits\"".toList "href=\"../index.html#benefits\"".toList)
        "href=\"/pages/contact.html\"".toList "href=\"contact.html\"".toList := by
  have hne : ¬ ("footer".toList = "header".toList) := by decide
  simp only [updateNavigation, h, if_true, if_neg hne]

theorem updateNavigation_other (currentPath content componentName : JSString)
    (h : includes currentPath "contact.html".toList = false)
    (hn : componentName = "header".toList ∨ componentName = "footer".toList) :
    updateNavigation currentPath content componentName =
      replace (replace content "href=\"/\"".toList "href=\"index.html\"".toList)
        "href=\"/pages/contact.html\"".toList "href=\"pages/contact.html\"".toList := by
  have hne : ¬ ("header".toList = "footer".toList) := by decide
  have hne2 : ¬ ("footer".toList = "header".toList) := by decide
  rcases hn with rfl | rfl
  · simp only [updateNavigation, h, if_true, if_neg hne]
    simp
  · simp only [updateNavigation, h, if_true, if_neg hne2]
    simp

theorem rewrite_summary (content t : JSString) (pr : JSString × JSString)
    (hne : pr.1 ≠ []) (h1 : countOcc pr.1 t = countOcc pr.1 content - 1)
    (h2 : countOcc pr.2 t = countOcc pr.2 content + min 1 (countOcc pr.1 content)) :
    countOcc pr.1 t = countOcc pr.1 content - 1 ∧
    countOcc pr.2 t = countOcc pr.2 content + min 1 (countOcc pr.1 content) ∧
    (countOcc pr.1 content ≤ 1 → includes t pr.1 = false) := by
  refine ⟨h1, h2, ?_⟩
  intro hle
  rw [includes_eq_false_iff hne, h1]
  omega

/-! ## Link rewriting -/

/-- C1, as stated, fails: on a contact page a header fragment with two root
links keeps the second `href="/"`, because `replace` rewrites one occurrence. -/
theorem updateNavigation_contact_second_root_link_kept :
    includes "/pages/contact.html".toList "contact.html".toList = true ∧
    includes (updateNavigation "/pages/contact.html".toList
      "<a href=\"/\">pHenohunt</a><a href=\"/\">Home</a>".toList "header".toList)
      "href=\"/\"".toList = true := by
  decide

set_option maxRecDepth 100000 in
/-- C1, amended: on a path containing `contact.html`, `updateNavigation` rewrites
the first occurrence of each literal of the header (five rules) and of the footer
(four rules) to its parent-relative target: the result has one occurrence fewer
of the literal, one more of the target when the literal occurred, and no
occurrence of the literal when the fragment had at most one.  The result is the
fragment taken through the rules in program order, each step replacing the
first occurrence of its literal in the text the step before has left and
keeping every other character, later occurrences included. -/
theorem updateNavigation_contact_rewrites_first_occurrence
    (currentPath content : JSString)
    (h : includes currentPath "contact.html".toList = true) :
    (∀ pr ∈ contactHeaderRules,
      countOcc pr.1 (updateNavigation currentPath content "header".toList) =
        countOcc pr.1 content - 1 ∧
      countOcc pr.2 (updateNavigation currentPath content "header".toList) =
        countOcc pr.2 content + min 1 (countOcc pr.1 content) ∧
      (countOcc pr.1 content ≤ 1 →
        includes (updateNavigation currentPath content "header".toList) pr.1 = false)) ∧
    (∀ pr ∈ contactFooterRules,
      countOcc pr.1 (updateNavigation currentPath content "footer".toList) =
        countOcc pr.1 content - 1 ∧
      countOcc pr.2 (updateNavigation currentPath content "footer".toList) =
        countOcc pr.2 content + min 1 (countOcc pr.1 content) ∧
      (countOcc pr.1 content ≤ 1 →
        includes (updateNavigation currentPath content "footer".toList) pr.1 = false)) ∧
    (∃ m1 m2 m3 m4,
      FirstRewrite "href=\"/\"".toList "href=\"../index.html\"".toList content m1 ∧
      FirstRewrite "href=\"#features\"".toList "href=\"../index.html#features\"".toList
        m1 m2 ∧
      FirstRewrite "href=\"#how-it-works\"".toList
        "href=\"../index.html#how-it-works\"".toList m2 m3 ∧
      FirstRewrite "href=\"#benefits\"".toList "href=\"../index.html#benefits\"".toList
        m3 m4 ∧
      FirstRewrite "href=\"/pages/contact.html\"".toList "href=\"contact.html\"".toList
        m4 (updateNavigation currentPath content "header".toList)) ∧
    (∃ m1 m2 m3,
      FirstRewrite "href=\"/\"".toList "href=\"../index.html\"".toList content m1 ∧
      FirstRewrite "href=\"#features\"".toList "href=\"../index.html#features\"".toList
        m1 m2 ∧
      FirstRewrite "href=\"#benefits\"".toList "href=\"../index.html#benefits\"".toList
        m2 m3 ∧
      FirstRewrite "href=\"/pages/contact.html\"".toList "href=\"contact.html\"".toList
        m3 (updateNavigation currentPath content "footer".toList)) := by
  refine ⟨?_, ?_, ?_, ?_⟩
  · rw [updateNavigation_header_contact currentPath content h]
    intro pr hpr
    simp only [contactHeaderRules, List.mem_cons, List.mem_singleton, List.not_mem_nil,
      or_false] at hpr
    rcases hpr with rfl | rfl | rfl | rfl | rfl <;>
    · refine rewrite_summary content _ _ (by decide) ?_ ?_ <;>
      simp (disch := decide) only [countOcc_replace_other, countOcc_replace_same,
        countOcc_replace_target]
  · rw [updateNavigation_footer_contact currentPath content h]
    intro pr hpr
    simp only [contactFooterRules, List.mem_cons, List.mem_singleton, List.not_mem_nil,
      or_false] at hpr
    rcases hpr with rfl | rfl | rfl | rfl <;>
    · refine rewrite_summary content _ _ (by decide) ?_ ?_ <;>
      simp (disch := decide) only [countOcc_replace_other, countOcc_replace_same,
        countOcc_replace_target]
  · rw [updateNavigation_header_contact currentPath content h]
    exact ⟨_, _, _, _, firstRewrite_replace (by decide) _ _,
      firstRewrite_replace (by decide) _ _, firstRewrite_replace (by decide) _ _,
      firstRewrite_replace (by decide) _ _, firstRewrite_replace (by decide) _ _⟩
  · rw [updateNavigation_footer_contact currentPath content h]
    exact ⟨_, _, _, firstRewrite_replace (by decide) _ _,
      firstRewrite_replace (by decide) _ _, firstRewrite_replace (by decide) _ _,
      firstRewrite_replace (by decide) _ _⟩

/-- Witness for C1 (amended), on `/pages/contact.html` with a one-link header. -/
theorem updateNavigation_contact_rewrites_first_occurrence_witness :
    includes "/pages/contact.html".toList "contact.html".toList = true ∧
    countOcc "href=\"/\"".toList (updateNavigation "/pages/contact.html".toList
      "<a href=\"/\">Home</a>".toList "header".toList) =
      countOcc "href=\"/\"".toList "<a href=\"/\">Home</a>".toList - 1 :=
  ⟨by decide,
   ((updateNavigation_contact_rewrites_first_occurrence "/pages/contact.html".toList
      "<a href=\"/\">Home</a>".toList (by decide)).1
      ("href=\"/\"".toList, "href=\"../index.html\"".toList) (by decide)).1⟩

/-- C2, as stated, fails: on the home page a header fragment with two root
links keeps the second `href="/"`. -/
theorem updateNavigation_home_second_root_link_kept :
    includes "/index.html".toList "contact.html".toList = false ∧
    includes (updateNavigation "/index.html".toList
      "<a href=\"/\">pHenohunt</a><a href=\"/\">Home</a>".toList "header".toList)
      "href=\"/\"".toList = true := by
  decide

set_option maxRecDepth 100000 in
/-- C2, amended: on a path that does not contain `contact.html`, for header and
footer alike, `updateNavigation` replaces the first occurrence of `href="/"` by
`href="index.html"` and then the first occurrence of `href="/pages/contact.html"`
by `href="pages/contact.html"`, keeping every other character; the result has
one occurrence fewer of each literal (none when it occurred at most once), and
it is the same for every path that does not contain `contact.html`. -/
theorem updateNavigation_other_rewrites_first_occurrence
    (currentPath content componentName : JSString)
    (h : includes currentPath "contact.html".toList = false)
    (hn : componentName = "header".toList ∨ componentName = "footer".toList) :
    (∃ mid, FirstRewrite "href=\"/\"".toList "href=\"index.html\"".toList content mid ∧
      FirstRewrite "href=\"/pages/contact.html\"".toList "href=\"pages/contact.html\"".toList
        mid (updateNavigation currentPath content componentName)) ∧
    (∀ pr ∈ homeRules,
      countOcc pr.1 (updateNavigation currentPath content componentName) =
        countOcc pr.1 content - 1 ∧
      countOcc pr.2 (updateNavigation currentPath content componentName) =
        countOcc pr.2 content + min 1 (countOcc pr.1 content) ∧
      (countOcc pr.1 content ≤ 1 →
        includes (updateNavigation currentPath content componentName) pr.1 = false)) ∧
    (∀ otherPath, includes otherPath "contact.html".toList = false →
      updateNavigation otherPath content componentName =
        updateNavigation currentPath content componentName) := by
  rw [updateNavigation_other currentPath content componentName h hn]
  refine ⟨⟨_, firstRewrite_replace (by decide) _ _, firstRewrite_replace (by decide) _ _⟩,
    ?_, ?_⟩
  · intro pr hpr
    simp only [homeRules, List.mem_cons, List.mem_singleton, List.not_mem_nil,
      or_false] at hpr
    rcases hpr with rfl | rfl <;>
    · refine rewrite_summary content _ _ (by decide) ?_ ?_ <;>
      simp (disch := decide) only [countOcc_replace_other, countOcc_replace_same,
        countOcc_replace_target]
  · intro otherPath ho
    exact updateNavigation_other otherPath content componentName ho hn

/-- Witness for C2 (amended), on `/index.html` with a one-link footer. -/
theorem updateNavigation_other_rewrites_first_occurrence_witness :
    includes "/index.html".toList "contact.html".toList = false ∧
    includes (updateNavigation "/index.html".toList
      "<a href=\"/\">Home</a>".toList "footer".toList) "href=\"/\"".toList = false :=
  ⟨by decide,
   ((updateNavigation_other_rewrites_first_occurrence "/index.html".toList
      "<a href=\"/\">Home</a>".toList "footer".toList (by decide) (Or.inr rfl)).2.1
      ("href=\"/\"".toList, "href=\"index.html\"".toList) (by decide)).2.2 (by decide)⟩

/-! ## Field validation -/

set_option maxRecDepth 100000 in
/-- The three patterns on sample values. -/
theorem pattern_samples :
    namePattern.test "Mary Ann".toList = true ∧ namePattern.test "R2".toList = false ∧
    emailPattern.test "ada@example.org".toList = true ∧
    emailPattern.test "ada@example".toList = false ∧
    emailPattern.test "a da@example.org".toList = false ∧
    phonePattern.test "+44 (20) 1234-5678".toList = true ∧
    phonePattern.test "1234567".toList = false ∧
    trim "  Mary Ann \n".toList = "Mary Ann".toList := by
  decide


set_option maxRecDepth 100000 in
/-- Lengths are counted in UTF-16 code units: a subject of U+1F600 and `a` has
length 3 and a message of five U+1F600 has length 10, so both pass, while a
subject of two letters fails. -/
theorem validateField_counts_code_units :
    jsLength [Char.ofNat 128512, 'a'] = 3 ∧
    (validateField (plainField "subject".toList [Char.ofNat 128512, 'a'])).1 = some true ∧
    (validateField (plainField "message".toList
      (List.replicate 5 (Char.ofNat 128512)))).1 = some true ∧
    (validateField (plainField "subject".toList "ab".toList)).1 = some false := by
  decide

theorem validationRules_of_mem_ruleKeys (name : JSString) (h : name ∈ ruleKeys) :
    ∃ rule, validationRules name = some rule ∧ rule.required = true ∧ rule.message ≠ [] := by
  simp only [ruleKeys, List.mem_cons, List.mem_singleton, List.not_mem_nil, or_false] at h
  rcases h with rfl | rfl | rfl | rfl | rfl | rfl
  · exact ⟨_, rfl, rfl, by decide⟩
  · exact ⟨_, rfl, rfl, by decide⟩
  · exact ⟨_, rfl, rfl, by decide⟩
  · exact ⟨_, rfl, rfl, by decide⟩
  · exact ⟨_, rfl, rfl, by decide⟩
  · exact ⟨_, rfl, rfl, by decide⟩

theorem getOrCreateErrorContainer_fields (f : Field) :
    (getOrCreateErrorContainer f).name = f.name ∧
    (getOrCreateErrorContainer f).value = f.value ∧
    (getOrCreateErrorContainer f).defaultValue = f.defaultValue ∧
    (getOrCreateErrorContainer f).errorClass = f.errorClass ∧
    (getOrCreateErrorContainer f).label = f.label := by
  unfold getOrCreateErrorContainer
  cases f.errorContainer <;> simp

theorem validateField_of_required_rule (field : Field) (rule : Rule)
    (h : validationRules field.name = some rule) (hreq : rule.required = true)
    (hmsg : rule.message ≠ []) :
    (conforms rule (trim field.value) = true →
      validateField field =
        (some true, { field with errorContainer := some [], errorClass := false })) ∧
    (conforms rule (trim field.value) = false →
      ∃ msg, msg ≠ [] ∧ validateField field =
        (some false, { field with errorContainer := some msg, errorClass := true })) := by
  obtain ⟨g1, g2, g3, _, g5⟩ := getOrCreateErrorContainer_fields field
  simp only [validateField, h, hreq, conforms, showFieldError, Bool.true_and,
    Bool.not_true, Bool.and_false, g1, g2, g3, g5]
  cases hv : (trim field.value).isEmpty
  · cases hm : rule.minLength with
    | none =>
      cases hp : rule.pattern with
      | none => simp
      | some p =>
        cases ht : p.test (trim field.value)
        · simp [ht, hmsg]
        · simp [ht]
    | some n =>
      by_cases hn : n ≤ jsLength (trim field.value)
      · have hn1 : ¬ (jsLength (trim field.value) < n) := by omega
        cases hp : rule.pattern with
        | none => simp [hn, hn1]
        | some p =>
          cases ht : p.test (trim field.value)
          · simp [hn, hn1, ht, hmsg]
          · simp [hn, hn1, ht]
      · have hn1 : jsLength (trim field.value) < n := by omega
        have hn2 : n ≠ 0 := by omega
        simp [hn, hn1, hn2, hmsg]
  · simp

/-- C3: for a field whose name is a key of the rule table, `validateField`
returns `true` and leaves the field without the `error` class and with an empty
error message when the trimmed value is non-empty, at least `minLength` long
(when the rule has one) and matches the pattern (when the rule has one); in
every other case it returns `false`, sets the `error` class and writes a
non-empty message.  The outcome does not depend on a prior error. -/
theorem validateField_rule_semantics (field : Field) (h : field.name ∈ ruleKeys) :
    ∃ rule, validationRules field.name = some rule ∧
      (conforms rule (trim field.value) = true →
        validateField field =
          (some true, { field with errorContainer := some [], errorClass := false })) ∧
      (conforms rule (trim field.value) = false →
        ∃ msg, msg ≠ [] ∧ validateField field =
          (some false, { field with errorContainer := some msg, errorClass := true })) := by
  obtain ⟨rule, h1, h2, h3⟩ := validationRules_of_mem_ruleKeys field.name h
  exact ⟨rule, h1, validateField_of_required_rule field rule h1 h2 h3⟩

set_option maxRecDepth 100000 in
/-- Witness for C3: an `email` field with a prior error and a conforming value. -/
theorem validateField_rule_semantics_witness :
    "email".toList ∈ ruleKeys ∧
    ∃ rule, validationRules "email".toList = some rule ∧
      (conforms rule (trim " ada@example.org ".toList) = true →
        validateField { name := "email".toList, value := " ada@example.org ".toList,
                        defaultValue := [], errorClass := true,
                        errorContainer := some "Email is required".toList, label := none } =
          (some true, { name := "email".toList, value := " ada@example.org ".toList,
                        defaultValue := [], errorClass := false,
                        errorContainer := some [], label := none })) ∧
      (conforms rule (trim " ada@example.org ".toList) = false →
        ∃ msg, msg ≠ [] ∧
          validateField { name := "email".toList, value := " ada@example.org ".toList,
                          defaultValue := [], errorClass := true,
                          errorContainer := some "Email is required".toList, label := none } =
            (some false, { name := "email".toList, value := " ada@example.org ".toList,
                           defaultValue := [], errorClass := true,
                           errorContainer := some msg, label := none })) :=
  ⟨by decide,
   validateField_rule_semantics
     { name := "email".toList, value := " ada@example.org ".toList,
       defaultValue := [], errorClass := true,
       errorContainer := some "Email is required".toList, label := none } (by decide)⟩

/-! ## Submit handling -/

set_option maxRecDepth 100000 in
/-- C4 fails on the code: on `#contactForm` with the invalid first name `J`,
after `initializeApp`, a submit event puts the control into the busy state and,
when the 2000 ms timer fires, a success banner is inserted and the value is
reset, although `validateField` rejected the field. -/
theorem invalid_submit_not_blocked :
    (validateField (plainField "firstName".toList "J".toList)).1 = some false ∧
    submitControls (dispatchSubmit 0
      (initializeApp (contactPage (plainField "firstName".toList "J".toList)))) =
      [some { textContent := "Sending...".toList, disabled := true }] ∧
    (dispatchSubmit 0
      (initializeApp (contactPage (plainField "firstName".toList "J".toList)))).banners = [] ∧
    (fireNext (dispatchSubmit 0
      (initializeApp (contactPage (plainField "firstName".toList "J".toList))))).map
        (fun p => (p.now, p.banners, fieldValues p)) = some (2000, [0], [[[]]]) := by
  decide

set_option maxRecDepth 100000 in
/-- C5 fails on the code: for a form whose only control is named `company`, a
name without a rule, `validateField` shows no error, yet `handleFormSubmit`
does not call `submitForm`: nothing is logged, no banner is inserted and no
timer is set. -/
theorem field_without_rule_blocks_submit :
    validationRules "company".toList = none ∧
    fieldErrors (handleFormSubmit 0 (contactPage (plainField "company".toList "Acme".toList))) =
      [[(false, some [])]] ∧
    (handleFormSubmit 0 (contactPage (plainField "company".toList "Acme".toList))).console = [] ∧
    (handleFormSubmit 0 (contactPage (plainField "company".toList "Acme".toList))).banners = [] ∧
    (handleFormSubmit 0 (contactPage (plainField "company".toList "Acme".toList))).timers = [] ∧
    (submitForm (contactPage (plainField "company".toList "Acme".toList))).console =
      ["Form submitted with data:".toList] := by
  refine ⟨rfl, ?_, ?_, ?_, ?_, ?_⟩ <;> decide

set_option maxRecDepth 100000 in
/-- C6 fails on the code: on `#contactForm` with the valid first name `John`,
after `initializeApp`, a submit at time 0 inserts a first banner at once (through
`handleFormSubmit` and `submitForm`) while the control is busy; at 2000 ms a
second banner is inserted, so two are present; they are removed at 5000 ms and
at 7000 ms. -/
theorem valid_submit_shows_two_banners :
    (validateField (plainField "firstName".toList "John".toList)).1 = some true ∧
    (dispatchSubmit 0
      (initializeApp (contactPage (plainField "firstName".toList "John".toList)))).banners
      = [0] ∧
    submitControls (dispatchSubmit 0
      (initializeApp (contactPage (plainField "firstName".toList "John".toList)))) =
      [some { textContent := "Sending...".toList, disabled := true }] ∧
    ((fireNext (dispatchSubmit 0
      (initializeApp (contactPage (plainField "firstName".toList "John".toList))))).map
        (fun p => (p.now, p.banners, fieldValues p))) = some (2000, [0, 1], [[[]]]) ∧
    ((fireNext (dispatchSubmit 0
      (initializeApp (contactPage (plainField "firstName".toList "John".toList))))).map
        submitControls) =
      some [some { textContent := "Send Message".toList, disabled := false }] ∧
    (((fireNext (dispatchSubmit 0
      (initializeApp (contactPage (plainField "firstName".toList "John".toList))))).bind
        fireNext).map (fun p => (p.now, p.banners))) = some (5000, [1]) ∧
    ((((fireNext (dispatchSubmit 0
      (initializeApp (contactPage (plainField "firstName".toList "John".toList))))).bind
        fireNext).bind fireNext).map (fun p => (p.now, p.banners, p.timers))) =
      some (7000, [], []) := by
  refine ⟨?_, ?_, ?_, ?_, ?_, ?_, ?_⟩ <;> decide

/-! ## Mobile menu -/

/-- C7 fails on the code: after `ComponentLoader.initializeMobileMenu` and then
`initializeApp`, the button carries two toggling listeners, so one click on
the button of the closed menu toggles both classes twice and leaves the menu
closed. -/
theorem menu_click_toggles_twice :
    (initializeApp { contactPage (plainField [] []) with
        hasMenuButton := true, hasNavMenu := true,
        menu := initializeMobileMenu true true closedMenu }).menu.buttonListeners =
      [ButtonListener.loaderToggle, ButtonListener.handleMobileMenuClick] ∧
    (click ClickTarget.menuButton
      (initializeApp { contactPage (plainField [] []) with
        hasMenuButton := true, hasNavMenu := true,
        menu := initializeMobileMenu true true closedMenu }).menu).navMobileActive = false ∧
    (click ClickTarget.menuButton
      (initializeApp { contactPage (plainField [] []) with
        hasMenuButton := true, hasNavMenu := true,
        menu := initializeMobileMenu true true closedMenu }).menu).buttonActive = false := by
  decide

/-! ## Fragment loading -/

theorem Dom.countId_append (id : JSString) (d e : Dom) :
    Dom.countId id (Dom.append d e) = Dom.countId id d + Dom.countId id e := by
  induction d with
  | nil => simp [Dom.append, Dom.countId]
  | elem tag i classes children next _ ih2 =>
    simp only [Dom.append, Dom.countId, ih2]
    omega

theorem Dom.hasId_eq_false_iff (id : JSString) (d : Dom) :
    Dom.hasId id d = false ↔ Dom.countId id d = 0 := by
  induction d with
  | nil => simp [Dom.hasId, Dom.countId]
  | elem tag i classes children next ih1 ih2 =>
    simp only [Dom.hasId, Dom.countId, Bool.or_eq_false_iff, ih1, ih2, Nat.add_eq_zero,
      beq_eq_false_iff_ne]
    by_cases h : i = id <;> simp [h]

theorem Dom.countId_replaceById (id : JSString) (fragment : Dom) (d : Dom)
    (h : Dom.countId id d = 1) :
    Dom.countId id (Dom.replaceById id fragment d) = Dom.countId id fragment := by
  induction d with
  | nil => simp [Dom.countId] at h
  | elem tag i classes children next ih1 ih2 =>
    simp only [Dom.countId] at h
    simp only [Dom.replaceById]
    by_cases hi : i = id
    · simp only [hi, if_true] at h ⊢
      rw [Dom.countId_append]
      omega
    · simp only [hi, if_false] at h ⊢
      cases hc : Dom.hasId id children with
      | true =>
        have hne : Dom.countId id children ≠ 0 := by
          intro h0
          rw [(Dom.hasId_eq_false_iff id children).mpr h0] at hc
          exact Bool.noConfusion hc
        simp only [if_true, Dom.countId, if_neg hi]
        rw [ih1 (by omega)]
        omega
      | false =>
        have h0 := (Dom.hasId_eq_false_iff id children).mp hc
        simp only [Bool.false_eq_true, if_false, Dom.countId, if_neg hi]
        rw [ih2 (by omega)]
        omega

theorem Dom.replaceById_append (id : JSString) (fragment : Dom) (tag : JSString)
    (classes : List JSString) (children next : Dom) (before : Dom)
    (h : Dom.hasId id before = false) :
    Dom.replaceById id fragment (Dom.append before (Dom.elem tag id classes children next)) =
      Dom.append before (Dom.append fragment next) := by
  induction before with
  | nil => simp [Dom.append, Dom.replaceById]
  | elem t i c ch nx _ ih2 =>
    simp only [Dom.hasId, Bool.or_eq_false_iff, beq_eq_false_iff_ne] at h
    obtain ⟨⟨h1, h2⟩, h3⟩ := h
    simp only [Dom.append, Dom.replaceById, if_neg h1, h2, Bool.false_eq_true, if_false, ih2 h3]

theorem loadHeader_response (parse : JSString → Dom) (b : Browser) (status : Nat)
    (body : JSString) (hok : responseOk status = true) (hbody : body ≠ [])
    (h : Dom.hasId "header-placeholder".toList b.body = true) :
    loadHeader parse (FetchOutcome.response status body) b =
      Except.ok { b with
        body := Dom.replaceById "header-placeholder".toList
          (parse (updateNavigation b.pathname body "header".toList)) b.body,
        menu := initializeMobileMenu
          (Dom.hasClass "mobile-menu-button".toList
            (Dom.replaceById "header-placeholder".toList
              (parse (updateNavigation b.pathname body "header".toList)) b.body))
          (Dom.hasClass "nav-menu".toList
            (Dom.replaceById "header-placeholder".toList
              (parse (updateNavigation b.pathname body "header".toList)) b.body)) b.menu,
        console := b.console ++ ["Header loaded successfully".toList] } := by
  have he : body.isEmpty = false := by
    cases body with
    | nil => exact absurd rfl hbody
    | cons a l => rfl
  simp only [loadHeader, loadComponent, fetchText, hok, he, insertComponent, h,
    Bool.not_true, Bool.false_eq_true, if_false, if_true]

theorem loadFooter_response (parse : JSString → Dom) (b : Browser) (status : Nat)
    (body : JSString) (hok : responseOk status = true) (hbody : body ≠ [])
    (h : Dom.hasId "footer-placeholder".toList b.body = true) :
    loadFooter parse (FetchOutcome.response status body) b =
      Except.ok { b with
        body := Dom.replaceById "footer-placeholder".toList
          (parse (updateNavigation b.pathname body "footer".toList)) b.body,
        console := b.console ++ ["Footer loaded successfully".toList] } := by
  have he : body.isEmpty = false := by
    cases body with
    | nil => exact absurd rfl hbody
    | cons a l => rfl
  simp only [loadFooter, loadComponent, fetchText, hok, he, insertComponent, h,
    Bool.not_true, Bool.false_eq_true, if_false, if_true]

theorem loadHeader_total (parse : JSString → Dom) (outcome : FetchOutcome) (b : Browser) :
    ∃ b1, loadHeader parse outcome b = Except.ok b1 ∧ b1.events = b.events ∧
      b1.pathname = b.pathname ∧
      (Dom.hasId "header-placeholder".toList b.body = false →
        b1.body = b.body ∧ b1.menu = b.menu) := by
  cases outcome with
  | failure => exact ⟨_, rfl, rfl, rfl, fun _ => ⟨rfl, rfl⟩⟩
  | response status body =>
    cases hok : responseOk status with
    | false =>
      simp only [loadHeader, loadComponent, fetchText, hok, Bool.not_false, if_true]
      exact ⟨_, rfl, rfl, rfl, fun _ => ⟨rfl, rfl⟩⟩
    | true =>
      cases he : body.isEmpty with
      | true =>
        simp only [loadHeader, loadComponent, fetchText, hok, he, Bool.not_true,
          Bool.false_eq_true, if_false, if_true]
        exact ⟨_, rfl, rfl, rfl, fun _ => ⟨rfl, rfl⟩⟩
      | false =>
        cases hid : Dom.hasId "header-placeholder".toList b.body with
        | true =>
          simp only [loadHeader, loadComponent, fetchText, hok, he, insertComponent, hid,
            Bool.not_true, Bool.false_eq_true, if_false, if_true]
          exact ⟨_, rfl, rfl, rfl, fun h => Bool.noConfusion h⟩
        | false =>
          simp only [loadHeader, loadComponent, fetchText, hok, he, insertComponent, hid,
            Bool.not_true, Bool.false_eq_true, if_false]
          exact ⟨_, rfl, rfl, rfl, fun _ => ⟨rfl, rfl⟩⟩

theorem loadFooter_total (parse : JSString → Dom) (outcome : FetchOutcome) (b : Browser) :
    ∃ b1, loadFooter parse outcome b = Except.ok b1 ∧ b1.events = b.events ∧
      b1.pathname = b.pathname ∧
      (Dom.hasId "footer-placeholder".toList b.body = false →
        b1.body = b.body ∧ b1.menu = b.menu) := by
  cases outcome with
  | failure => exact ⟨_, rfl, rfl, rfl, fun _ => ⟨rfl, rfl⟩⟩
  | response status body =>
    cases hok : responseOk status with
    | false =>
      simp only [loadFooter, loadComponent, fetchText, hok, Bool.not_false, if_true]
      exact ⟨_, rfl, rfl, rfl, fun _ => ⟨rfl, rfl⟩⟩
    | true =>
      cases he : body.isEmpty with
      | true =>
        simp only [loadFooter, loadComponent, fetchText, hok, he, Bool.not_true,
          Bool.false_eq_true, if_false, if_true]
        exact ⟨_, rfl, rfl, rfl, fun _ => ⟨rfl, rfl⟩⟩
      | false =>
        cases hid : Dom.hasId "footer-placeholder".toList b.body with
        | true =>
          simp only [loadFooter, loadComponent, fetchText, hok, he, insertComponent, hid,
            Bool.not_true, Bool.false_eq_true, if_false, if_true]
          exact ⟨_, rfl, rfl, rfl, fun h => Bool.noConfusion h⟩
        | false =>
          simp only [loadFooter, loadComponent, fetchText, hok, he, insertComponent, hid,
            Bool.not_true, Bool.false_eq_true, if_false]
          exact ⟨_, rfl, rfl, rfl, fun _ => ⟨rfl, rfl⟩⟩

/-- C8, as stated, fails: when the fetch of the header is rejected, `loadHeader`
completes and the element `#header-placeholder` is still in the document. -/
theorem loadHeader_failed_fetch_keeps_placeholder :
    Dom.hasId "header-placeholder".toList placeholderPage.body = true ∧
    (bodyAfter (loadHeader sampleParse FetchOutcome.failure placeholderPage)).map
      (Dom.hasId "header-placeholder".toList) = some true := by
  decide

/-- C8, amended: when the document holds an element with id `header-placeholder`
(resp. `footer-placeholder`) and the fetch answers with a success status and a
non-empty text, `insertComponent` returns `true` and `loadHeader` (resp.
`loadFooter`) completes with the first such element replaced, children
included, by the parsed fragment with rewritten links; if the id was unique,
the elements with that id afterwards are those of the fragment itself; a
placeholder among the top-level elements leaves its place to the fragment, the
elements before and after it staying as they are. -/
theorem load_replaces_placeholder (parse : JSString → Dom) (b : Browser) (status : Nat)
    (text : JSString) (hok : responseOk status = true) (htext : text ≠ []) :
    (Dom.hasId "header-placeholder".toList b.body = true →
      (insertComponent parse (updateNavigation b.pathname text "header".toList)
        "header-placeholder".toList b).1 = true ∧
      ∃ b1, loadHeader parse (FetchOutcome.response status text) b = Except.ok b1 ∧
        b1.body = Dom.replaceById "header-placeholder".toList
          (parse (updateNavigation b.pathname text "header".toList)) b.body ∧
        (Dom.countId "header-placeholder".toList b.body = 1 →
          Dom.countId "header-placeholder".toList b1.body =
            Dom.countId "header-placeholder".toList
              (parse (updateNavigation b.pathname text "header".toList))) ∧
        (∀ before tag classes children next,
          Dom.hasId "header-placeholder".toList before = false →
          b.body = Dom.append before
            (Dom.elem tag "header-placeholder".toList classes children next) →
          b1.body = Dom.append before
            (Dom.append (parse (updateNavigation b.pathname text "header".toList)) next))) ∧
    (Dom.hasId "footer-placeholder".toList b.body = true →
      (insertComponent parse (updateNavigation b.pathname text "footer".toList)
        "footer-placeholder".toList b).1 = true ∧
      ∃ b1, loadFooter parse (FetchOutcome.response status text) b = Except.ok b1 ∧
        b1.body = Dom.replaceById "footer-placeholder".toList
          (parse (updateNavigation b.pathname text "footer".toList)) b.body ∧
        (Dom.countId "footer-placeholder".toList b.body = 1 →
          Dom.countId "footer-placeholder".toList b1.body =
            Dom.countId "footer-placeholder".toList
              (parse (updateNavigation b.pathname text "footer".toList))) ∧
        (∀ before tag classes children next,
          Dom.hasId "footer-placeholder".toList before = false →
          b.body = Dom.append before
            (Dom.elem tag "footer-placeholder".toList classes children next) →
          b1.body = Dom.append before
            (Dom.append (parse (updateNavigation b.pathname text "footer".toList)) next))) := by
  constructor
  · intro h
    refine ⟨by simp only [insertComponent, h, if_true], _,
      loadHeader_response parse b status text hok htext h, rfl, ?_, ?_⟩
    · intro h1
      exact Dom.countId_replaceById _ _ _ h1
    · intro before tag classes children next hb heq
      show Dom.replaceById _ _ b.body = _
      rw [heq]
      exact Dom.replaceById_append _ _ _ _ _ _ _ hb
  · intro h
    refine ⟨by simp only [insertComponent, h, if_true], _,
      loadFooter_response parse b status text hok htext h, rfl, ?_, ?_⟩
    · intro h1
      exact Dom.countId_replaceById _ _ _ h1
    · intro before tag classes children next hb heq
      show Dom.replaceById _ _ b.body = _
      rw [heq]
      exact Dom.replaceById_append _ _ _ _ _ _ _ hb

/-- Witness for C8 (amended): status 200 and a one-link header on the page with
both placeholders; afterwards no element has the id `header-placeholder`. -/
theorem load_replaces_placeholder_witness :
    responseOk 200 = true ∧ "<a href=\"/\">Home</a>".toList ≠ [] ∧
    Dom.hasId "header-placeholder".toList placeholderPage.body = true ∧
    ∃ b1, loadHeader sampleParse
        (FetchOutcome.response 200 "<a href=\"/\">Home</a>".toList) placeholderPage =
        Except.ok b1 ∧
      Dom.countId "header-placeholder".toList b1.body = 0 := by
  obtain ⟨_, b1, h1, _, h3, _⟩ :=
    (load_replaces_placeholder sampleParse placeholderPage 200
      "<a href=\"/\">Home</a>".toList (by decide) (by decide)).1 (by decide)
  exact ⟨by decide, by decide, by decide, b1, h1, by rw [h3 (by decide)]; decide⟩

/-- C9: when no element has the id, `insertComponent` returns `false` and leaves
the document, the menu and the dispatched events as they were (it writes one
console warning); so `loadHeader` and `loadFooter` complete, for every outcome
of the fetch, with the document unchanged, and `loadHeader` attaches no menu
listener and injects no stylesheet. -/
theorem absent_placeholder_changes_nothing (parse : JSString → Dom) (b : Browser) :
    (∀ content placeholderId : JSString, Dom.hasId placeholderId b.body = false →
      (insertComponent parse content placeholderId b).1 = false ∧
      (insertComponent parse content placeholderId b).2.body = b.body ∧
      (insertComponent parse content placeholderId b).2.menu = b.menu ∧
      (insertComponent parse content placeholderId b).2.events = b.events) ∧
    (Dom.hasId "header-placeholder".toList b.body = false →
      ∀ outcome, ∃ b1, loadHeader parse outcome b = Except.ok b1 ∧
        b1.body = b.body ∧ b1.menu = b.menu ∧ b1.events = b.events) ∧
    (Dom.hasId "footer-placeholder".toList b.body = false →
      ∀ outcome, ∃ b1, loadFooter parse outcome b = Except.ok b1 ∧
        b1.body = b.body ∧ b1.menu = b.menu ∧ b1.events = b.events) := by
  refine ⟨?_, ?_, ?_⟩
  · intro content placeholderId h
    simp only [insertComponent, h, Bool.false_eq_true, if_false, and_self]
  · intro h outcome
    obtain ⟨b1, h1, h2, _, h4⟩ := loadHeader_total parse outcome b
    exact ⟨b1, h1, (h4 h).1, (h4 h).2, h2⟩
  · intro h outcome
    obtain ⟨b1, h1, h2, _, h4⟩ := loadFooter_total parse outcome b
    exact ⟨b1, h1, (h4 h).1, (h4 h).2, h2⟩

/-- Witness for C9: a successful fetch of the header on a page without
placeholders leaves the menu without listeners and styles. -/
theorem absent_placeholder_changes_nothing_witness :
    Dom.hasId "header-placeholder".toList plainPage.body = false ∧
    ∃ b1, loadHeader sampleParse
        (FetchOutcome.response 200 "<a href=\"/\">Home</a>".toList) plainPage =
        Except.ok b1 ∧
      b1.body = plainPage.body ∧ b1.menu = closedMenu ∧ b1.events = [] :=
  ⟨by decide,
   (absent_placeholder_changes_nothing sampleParse plainPage).2.1 (by decide)
     (FetchOutcome.response 200 "<a href=\"/\">Home</a>".toList)⟩

/-- C10: for every outcome of the two fetches, every document and either order
of the two loads, `loadComponent` yields the text of a success response and
`null` otherwise, `loadAllComponents` completes without raising and without
dispatching an event, and the `DOMContentLoaded` listener then dispatches
`componentsLoaded` once, on the state both loads have left. -/
theorem componentsLoaded_dispatched_once (parse : JSString → Dom)
    (headerOutcome footerOutcome : FetchOutcome) (headerFirst : Bool) (b : Browser) :
    (∀ (outcome : FetchOutcome) (componentName : JSString),
      ∃ b1, loadComponent outcome componentName b =
        Except.ok ((match outcome with
          | FetchOutcome.response status text => if responseOk status then some text else none
          | FetchOutcome.failure => none), b1)) ∧
    ∃ first both,
      (if headerFirst then
        loadHeader parse headerOutcome b = Except.ok first ∧
        loadFooter parse footerOutcome first = Except.ok both
      else
        loadFooter parse footerOutcome b = Except.ok first ∧
        loadHeader parse headerOutcome first = Except.ok both) ∧
      loadAllComponents parse headerOutcome footerOutcome headerFirst b = Except.ok both ∧
      both.events = b.events ∧
      onDOMContentLoaded parse headerOutcome footerOutcome headerFirst b =
        Except.ok { both with events := b.events ++ ["componentsLoaded".toList] } ∧
      List.count "componentsLoaded".toList (b.events ++ ["componentsLoaded".toList]) =
        List.count "componentsLoaded".toList b.events + 1 := by
  constructor
  · intro outcome componentName
    cases outcome with
    | failure => exact ⟨_, rfl⟩
    | response status text =>
      cases hok : responseOk status <;>
        simp only [loadComponent, fetchText, hok, Bool.not_false, Bool.not_true, if_true,
          Bool.false_eq_true, if_false] <;>
        exact ⟨_, rfl⟩
  · cases headerFirst with
    | true =>
      obtain ⟨b1, h1, e1, _, _⟩ := loadHeader_total parse headerOutcome b
      obtain ⟨b2, h2, e2, _, _⟩ := loadFooter_total parse footerOutcome b1
      refine ⟨b1, b2, ?_, ?_, ?_, ?_, ?_⟩
      · simp only [if_true]; exact ⟨h1, h2⟩
      · simp only [loadAllComponents, if_true, h1, h2]
      · rw [e2, e1]
      · simp only [onDOMContentLoaded, loadAllComponents, if_true, h1, h2, e2, e1]
      · simp
    | false =>
      obtain ⟨b1, h1, e1, _, _⟩ := loadFooter_total parse footerOutcome b
      obtain ⟨b2, h2, e2, _, _⟩ := loadHeader_total parse headerOutcome b1
      refine ⟨b1, b2, ?_, ?_, ?_, ?_, ?_⟩
      · simp only [Bool.false_eq_true, if_false]; exact ⟨h1, h2⟩
      · simp only [loadAllComponents, Bool.false_eq_true, if_false, h1, h2]
      · rw [e2, e1]
      · simp only [onDOMContentLoaded, loadAllComponents, Bool.false_eq_true, if_false, h1, h2,
          e2, e1]
      · simp

/-! ## Scroll listener -/

theorem classAfter_cons (e : ℚ × ℚ) (l : List (ℚ × ℚ)) (initial : Bool) :
    classAfter (e :: l) initial = classAfter l (decide (e.2 > 100)) := by
  cases l with
  | nil => simp [classAfter]
  | cons a l =>
    cases h : (a :: l).getLast? with
    | none => simp at h
    | some x => simp [classAfter, List.getLast?_cons_cons, h]

theorem spaced_cons (limit : ℚ) (e : ℚ × ℚ) (l : List (ℚ × ℚ)) :
    spaced limit (e :: l) = true ↔
      (∀ b, l.head? = some b → e.1 + limit ≤ b.1) ∧ spaced limit l = true := by
  cases l with
  | nil => simp [spaced]
  | cons a l => simp [spaced]

theorem runScroll_append (a b : List ScrollStep) (p : ScrollPage) :
    runScroll (a ++ b) p = (runScroll a p).bind (runScroll b) := by
  induction a generalizing p with
  | nil => simp [runScroll]
  | cons s rest ih =>
    simp only [List.cons_append, runScroll]
    cases scrollStep p s with
    | none => simp
    | some p1 => simpa using ih p1

/-- A scroll event outside the throttle runs the handler and closes the throttle
until 100 ms later. -/
theorem scrollStep_open (p q : ScrollPage) (t y : ℚ) (hh : p.hasHeader = true)
    (h1 : p.inThrottle = false) (h2 : p.timers = [])
    (hs : scrollStep p (ScrollStep.scroll t y) = some q) :
    p.now ≤ t ∧ q.hasHeader = true ∧ q.headerScrolled = decide (y > 100) ∧
    q.inThrottle = true ∧ q.timers = [t + 100] := by
  by_cases hnow : p.now ≤ t
  · simp only [scrollStep, hnow, if_true, Option.some.injEq] at hs
    subst hs
    simp [throttle, onScroll, hh, h1, h2, hnow]
  · simp [scrollStep, hnow] at hs

/-- A scroll event inside the throttle changes neither the class nor the
throttle. -/
theorem scrollStep_closed (p q : ScrollPage) (t y : ℚ) (h1 : p.inThrottle = true)
    (hs : scrollStep p (ScrollStep.scroll t y) = some q) :
    q.hasHeader = p.hasHeader ∧ q.headerScrolled = p.headerScrolled ∧
    q.inThrottle = true ∧ q.timers = p.timers := by
  by_cases hnow : p.now ≤ t
  · simp only [scrollStep, hnow, if_true, Option.some.injEq] at hs
    subst hs
    simp [throttle, h1]
  · simp [scrollStep, hnow] at hs

/-- A reset runs at its due time or later and opens the throttle. -/
theorem scrollStep_reset (p q : ScrollPage) (t : ℚ)
    (hs : scrollStep p (ScrollStep.reset t) = some q) :
    ∃ due rest, p.timers = due :: rest ∧ due ≤ t ∧ q.now = t ∧
      q.hasHeader = p.hasHeader ∧ q.headerScrolled = p.headerScrolled ∧
      q.inThrottle = false ∧ q.timers = rest := by
  cases ht : p.timers with
  | nil => simp [scrollStep, ht] at hs
  | cons due rest =>
    by_cases hc : p.now ≤ t ∧ due ≤ t
    · simp only [scrollStep, ht, hc, and_self, if_true, Option.some.injEq] at hs
      subst hs
      exact ⟨due, rest, rfl, hc.2, rfl, rfl, rfl, rfl, rfl⟩
    · simp [scrollStep, ht, hc] at hs

theorem runScroll_admitted (trace : List ScrollStep) :
    ∀ (p q : ScrollPage) (bound : ℚ), p.hasHeader = true → ThrottleInv p bound →
      runScroll trace p = some q →
      (q.hasHeader = true ∧ ∃ b, ThrottleInv q b) ∧
      q.headerScrolled = classAfter (admitted (!p.inThrottle) trace) p.headerScrolled ∧
      spaced 100 (admitted (!p.inThrottle) trace) = true ∧
      (∀ e, (admitted (!p.inThrottle) trace).head? = some e → bound ≤ e.1) := by
  induction trace with
  | nil =>
    intro p q bound hh hinv hrun
    simp only [runScroll, Option.some.injEq] at hrun
    subst hrun
    refine ⟨⟨hh, bound, hinv⟩, ?_⟩
    cases p.inThrottle <;> simp [admitted, classAfter, spaced]
  | cons s rest ih =>
    intro p q bound hh hinv hrun
    simp only [runScroll] at hrun
    cases hstep : scrollStep p s with
    | none => simp [hstep] at hrun
    | some p1 =>
      simp only [hstep] at hrun
      cases s with
      | scroll t y =>
        rcases hinv with ⟨h1, h2⟩ | ⟨h1, h2, h3⟩
        · obtain ⟨g1, g2, g3, g4⟩ := scrollStep_closed p p1 t y h1 hstep
          have hinv1 : ThrottleInv p1 bound := Or.inl ⟨g3, by rw [g4, h2]⟩
          have key := ih p1 q bound (by rw [g1, hh]) hinv1 hrun
          rw [g3, g2] at key
          simpa [h1, admitted] using key
        · obtain ⟨g0, g1, g2, g3, g4⟩ := scrollStep_open p p1 t y hh h1 h2 hstep
          have hinv1 : ThrottleInv p1 (t + 100) := Or.inl ⟨g3, g4⟩
          obtain ⟨k1, k2, k3, k4⟩ := ih p1 q (t + 100) g1 hinv1 hrun
          rw [g3, g2] at k2
          rw [g3] at k3 k4
          simp only [Bool.not_true] at k2 k3 k4
          simp only [h1, Bool.not_false, admitted]
          refine ⟨k1, ?_, ?_, ?_⟩
          · rw [classAfter_cons]; exact k2
          · rw [spaced_cons]; exact ⟨k4, k3⟩
          · intro e he
            simp only [List.head?_cons, Option.some.injEq] at he
            rw [← he]
            exact le_trans h3 g0
      | reset t =>
        obtain ⟨due, rest1, g1, g2, g3, g4, g5, g6, g7⟩ := scrollStep_reset p p1 t hstep
        rcases hinv with ⟨h1, h2⟩ | ⟨h1, h2, h3⟩
        · rw [h2] at g1
          simp only [List.cons.injEq] at g1
          have hinv1 : ThrottleInv p1 bound :=
            Or.inr ⟨g6, by rw [g7, ← g1.2], by rw [g3, g1.1]; exact g2⟩
          have key := ih p1 q bound (by rw [g4, hh]) hinv1 hrun
          rw [g6, g5] at key
          cases hp : p.inThrottle <;> simpa [admitted] using key
        · rw [h2] at g1
          exact absurd g1 (by simp)

/-- C11, as stated, fails: after a scroll to 50 at 0 ms and a scroll to 200 at
10 ms the last position exceeds 100, but the second event fell into the
throttle and the header does not have the class `scrolled`. -/
theorem scroll_inside_throttle_is_dropped :
    (runScroll [ScrollStep.scroll 0 50, ScrollStep.scroll 10 200] freshScrollPage).map
      (fun q => q.headerScrolled) = some false ∧ (200 : ℚ) > 100 := by
  norm_num [runScroll, scrollStep, throttle, onScroll, freshScrollPage]

/-- The reset may run late and positions need not be whole: a scroll back to 50
that comes 100 ms after a scroll to 150, before the reset has run, is dropped
and the class stays; a first scroll to 100.5 adds the class; a reset cannot
run before 100 ms have passed. -/
theorem scroll_samples :
    (runScroll [ScrollStep.scroll 0 150, ScrollStep.scroll 100 50] freshScrollPage).map
      (fun q => q.headerScrolled) = some true ∧
    (runScroll [ScrollStep.scroll 0 (201 / 2)] freshScrollPage).map
      (fun q => q.headerScrolled) = some true ∧
    runScroll [ScrollStep.scroll 0 150, ScrollStep.reset 99] freshScrollPage = none := by
  norm_num [runScroll, scrollStep, throttle, onScroll, freshScrollPage]

/-- C11, amended: on a page with a header, starting outside the throttle, for
every run of scroll events and resets the browser can take, the class
`scrolled` at the end is the one set for the last scroll event that arrived
outside the throttle (position above 100: class present; 100 or less: class
absent), an event being outside when it is the first or when the reset armed
by the previous handler run has run since; the events let through are 100 ms
or more apart; and when the last scroll event is the first step or follows a
reset directly, the header has the class exactly when the last scroll position
exceeds 100. -/
theorem scroll_class_follows_admitted_events (trace : List ScrollStep) (p q : ScrollPage)
    (hh : p.hasHeader = true) (h1 : p.inThrottle = false) (h2 : p.timers = [])
    (hrun : runScroll trace p = some q) :
    q.headerScrolled = classAfter (admitted true trace) p.headerScrolled ∧
    spaced 100 (admitted true trace) = true ∧
    (∀ pre t y, trace = pre ++ [ScrollStep.scroll t y] →
      (pre = [] ∨ ∃ pre0 t0, pre = pre0 ++ [ScrollStep.reset t0]) →
      (q.headerScrolled = true ↔ y > 100)) := by
  have hinv : ThrottleInv p p.now := Or.inr ⟨h1, h2, le_refl _⟩
  obtain ⟨_, k2, k3, _⟩ := runScroll_admitted trace p q p.now hh hinv hrun
  rw [h1] at k2 k3
  refine ⟨k2, k3, ?_⟩
  intro pre t y htrace hpre
  rw [htrace, runScroll_append] at hrun
  cases hp1 : runScroll pre p with
  | none => simp [hp1] at hrun
  | some p1 =>
    simp only [hp1, Option.some_bind, runScroll] at hrun
    cases hq : scrollStep p1 (ScrollStep.scroll t y) with
    | none => simp [hq] at hrun
    | some q1 =>
      simp only [hq, Option.some.injEq] at hrun
      have hopen : p1.hasHeader = true ∧ p1.inThrottle = false ∧ p1.timers = [] := by
        rcases hpre with rfl | ⟨pre0, t0, rfl⟩
        · simp only [runScroll, Option.some.injEq] at hp1
          subst hp1
          exact ⟨hh, h1, h2⟩
        · rw [runScroll_append] at hp1
          cases hp0 : runScroll pre0 p with
          | none => simp [hp0] at hp1
          | some p0 =>
            simp only [hp0, Option.some_bind, runScroll] at hp1
            cases hr : scrollStep p0 (ScrollStep.reset t0) with
            | none => simp [hr] at hp1
            | some p2 =>
              simp only [hr, Option.some.injEq] at hp1
              subst hp1
              obtain ⟨⟨m1, b0, m2⟩, _⟩ := runScroll_admitted pre0 p p0 p.now hh hinv hp0
              obtain ⟨due, rest1, g1, _, _, g4, _, g6, g7⟩ := scrollStep_reset p0 p2 t0 hr
              have hrest : rest1 = [] := by
                rcases m2 with ⟨_, n2⟩ | ⟨_, n2, _⟩
                · rw [n2] at g1
                  simp only [List.cons.injEq] at g1
                  exact g1.2.symm
                · rw [n2] at g1
                  exact absurd g1 (by simp)
              exact ⟨by rw [g4, m1], g6, by rw [g7, hrest]⟩
      obtain ⟨_, _, g2, _, _⟩ := scrollStep_open p1 q1 t y hopen.1 hopen.2.1 hopen.2.2 hq
      rw [← hrun, g2]
      simp

/-- Witness for C11 (amended): a scroll to 150 at 0 ms, the reset at 100 ms and a
scroll back to exactly 100 on the fresh page; the class is removed. -/
theorem scroll_class_follows_admitted_events_witness :
    freshScrollPage.hasHeader = true ∧ freshScrollPage.inThrottle = false ∧
    freshScrollPage.timers = [] ∧
    runScroll [ScrollStep.scroll 0 150, ScrollStep.reset 100, ScrollStep.scroll 100 100]
      freshScrollPage = some scrolledBackPage ∧
    (scrolledBackPage.headerScrolled = true ↔ (100 : ℚ) > 100) :=
  ⟨rfl, rfl, rfl,
   by norm_num [runScroll, scrollStep, throttle, onScroll, freshScrollPage, scrolledBackPage],
   (scroll_class_follows_admitted_events
      [ScrollStep.scroll 0 150, ScrollStep.reset 100, ScrollStep.scroll 100 100]
      freshScrollPage scrolledBackPage rfl rfl rfl
      (by norm_num [runScroll, scrollStep, throttle, onScroll, freshScrollPage,
        scrolledBackPage])).2.2
      [ScrollStep.scroll 0 150, ScrollStep.reset 100] 100 100 rfl
      (Or.inr ⟨[ScrollStep.scroll 0 150], 100, rfl⟩)⟩

/-! ## Base path and link rules -/

set_option maxRecDepth 100000 in
/-- C12 fails on the code: on `/pages/about.html` `getBasePath` returns `..`
while `updateNavigation` applies the same-directory rules, and on
`/contact.html` `getBasePath` returns `.` while `updateNavigation` applies the
parent-relative rules. -/
theorem base_path_and_link_rules_disagree :
    getBasePath "/pages/about.html".toList = "..".toList ∧
    updateNavigation "/pages/about.html".toList
      "<a href=\"/\">Home</a><a href=\"/pages/contact.html\">Contact</a>".toList
      "header".toList =
      "<a href=\"index.html\">Home</a><a href=\"pages/contact.html\">Contact</a>".toList ∧
    getBasePath "/contact.html".toList = ".".toList ∧
    updateNavigation "/contact.html".toList
      "<a href=\"/\">Home</a><a href=\"/pages/contact.html\">Contact</a>".toList
      "header".toList =
      "<a href=\"../index.html\">Home</a><a href=\"contact.html\">Contact</a>".toList := by
  decide

/-! ## Start-up -/

theorem initContactForm_console (p : Page) : (initContactForm p).console = p.console := by
  unfold initContactForm
  split
  · rfl
  · split
    · rfl
    · split <;> rfl

theorem initCount_initializeApp (p : Page) :
    initCount (initializeApp p) = initCount p + 1 := by
  have hne : ¬ ("Application initialized successfully".toList =
      "Initializing application...".toList) := by decide
  simp only [initCount, initializeApp, initContactForm_console, initFormValidation,
    List.count_append, List.count_singleton, beq_self_eq_true, if_true]
  simp [hne]

set_option maxRecDepth 100000 in
/-- C13 fails on the code: on a page with both placeholders and no `header` or
`footer` element of its own, `initializeApp` runs twice when both fetches fail
(once on `componentsLoaded`, once more when the 3000 ms timer finds neither
element) and twice when the timer fires before a successful load has finished;
it runs once when the load succeeds before the timer fires. -/
theorem initializeApp_runs_twice :
    initCountAfter (pageLoad sampleParse FetchOutcome.failure FetchOutcome.failure true
      TimerSlot.afterEvent placeholderPage emptyPage) = some 2 ∧
    initCountAfter (pageLoad sampleParse
      (FetchOutcome.response 200 "<header class=\"header\"></header>".toList)
      (FetchOutcome.response 200 "<footer class=\"footer\"></footer>".toList) true
      TimerSlot.beforeLoads placeholderPage emptyPage) = some 2 ∧
    initCountAfter (pageLoad sampleParse
      (FetchOutcome.response 200 "<header class=\"header\"></header>".toList)
      (FetchOutcome.response 200 "<footer class=\"footer\"></footer>".toList) true
      TimerSlot.afterEvent placeholderPage emptyPage) = some 1 := by
  refine ⟨?_, ?_, ?_⟩ <;> decide

/-- Without placeholders `initializeApp` runs once, at `DOMContentLoaded`, and
neither a listener nor a timer is armed: the page load ends, for every outcome
of the fetches and every slot of a timer, with the page `initializeApp` left. -/
theorem pageLoad_without_placeholders (parse : JSString → Dom)
    (headerOutcome footerOutcome : FetchOutcome) (headerFirst : Bool) (slot : TimerSlot)
    (b : Browser) (page : Page)
    (h1 : Dom.hasId "header-placeholder".toList b.body = false)
    (h2 : Dom.hasId "footer-placeholder".toList b.body = false) :
    ∃ s, pageLoad parse headerOutcome footerOutcome headerFirst slot b page = Except.ok s ∧
      s.page = initializeApp page ∧ s.componentsLoadedListeners = 0 ∧
      s.fallbackTimers = [] ∧ initCount s.page = initCount page + 1 := by
  have hmain : mainOnDOMContentLoaded
      { document := b.body, page := page, componentsLoadedListeners := 0,
        fallbackTimers := [] } =
      { document := b.body, page := initializeApp page, componentsLoadedListeners := 0,
        fallbackTimers := [] } := by
    simp only [mainOnDOMContentLoaded, h1, h2, Bool.or_self, Bool.false_eq_true, if_false]
  have hfire : ∀ (d : Dom) (p : Page),
      fireFallback { document := d, page := p, componentsLoadedListeners := 0,
                     fallbackTimers := [] } =
      { document := d, page := p, componentsLoadedListeners := 0, fallbackTimers := [] } := by
    intro d p; rfl
  have hdisp : ∀ (d : Dom) (p : Page),
      dispatchComponentsLoaded { document := d, page := p, componentsLoadedListeners := 0,
                                 fallbackTimers := [] } =
      { document := d, page := p, componentsLoadedListeners := 0, fallbackTimers := [] } := by
    intro d p; rfl
  cases headerFirst with
  | true =>
    obtain ⟨b1, e1, _, _, k1⟩ := loadHeader_total parse headerOutcome b
    obtain ⟨b2, e2, _, _, _⟩ := loadFooter_total parse footerOutcome b1
    refine ⟨{ document := b2.body, page := initializeApp page, componentsLoadedListeners := 0,
              fallbackTimers := [] }, ?_, rfl, rfl, rfl, initCount_initializeApp page⟩
    simp only [pageLoad, hmain, if_true, e1, e2, hfire, hdisp, ite_self]
  | false =>
    obtain ⟨b1, e1, _, _, k1⟩ := loadFooter_total parse footerOutcome b
    obtain ⟨b2, e2, _, _, _⟩ := loadHeader_total parse headerOutcome b1
    refine ⟨{ document := b2.body, page := initializeApp page, componentsLoadedListeners := 0,
              fallbackTimers := [] }, ?_, rfl, rfl, rfl, initCount_initializeApp page⟩
    simp only [pageLoad, hmain, Bool.false_eq_true, if_false, e1, e2, hfire, hdisp, ite_self]

end Phenohunt
